import Mathlib

set_option maxRecDepth 100000

/-!
Verification of the SLIX peak-analysis core.

This file gives a shallow embedding, over exact rationals, of the per-pixel
peak-analysis routines of the repository:

* `src/Python/Library/ScatterPlotToolbox.py` — the CPU implementation; the
  direction classification of `crossing_direction_array_from_roiset`
  (lines 268-298) is embedded as `crossing_direction_from_peaks`, a function
  of the already detected (scipy `find_peaks` is an external library) and
  angle-scaled peak list of one pixel.
* `src/SLIX/SLIX_GPU/_toolbox.py` — the GPU kernels `_peak_cleanup`,
  `_prominence`, `_peakwidth`, `_peakdistance`, `_direction`,
  `_centroid`, embedded per pixel.  CUDA loops are embedded as
  fuel-indexed structural recursions; each top-level wrapper passes a fuel
  that is provably at least the number of iterations the source loop can
  perform, so the fuel case is never the reason a loop stops.

Machine floats of the source are modelled as exact rationals; machine ints
as `Int`/`Nat`.  Python's `%` on floats (always used here with the positive
modulus `180`) is `pymod`.  Numba device arrays are read without bounds
checks: an index `i` with `-len ≤ i < 0` wraps to `len + i` (Python
semantics compiled by numba), while `i ≥ len` reads memory beyond the row.
Accordingly signal rows are modelled either as lists read through
`sigAt` (wrapping access, used where the source's own guards keep every
index inside `[-len, len)`) or as total functions `ℤ → ℚ` built by `mkMem`
from the row plus an arbitrary "rest of memory" function for the one kernel
(`_peakwidth`) whose scan can leave the row.
-/

/-- Python's `%` operator for a real (rational) left operand and positive
modulus: `pymod a b = a - b * ⌊a / b⌋`, always in `[0, b)` for `b > 0`. -/
def pymod (a b : ℚ) : ℚ := a - b * ⌊a / b⌋

/-- Wrapping read of a signal row, `sigAt sig i = sig[i mod len]`.  Used to
model numba array reads at indices the source keeps within `[-len, len)`,
where Python/numba negative indexing coincides with `i mod len`. -/
def sigAt (sig : List ℚ) (i : ℤ) : ℚ :=
  sig.getD ((i % (sig.length : ℤ)).toNat) 0

/-- Row view of device memory: indices in `[0, len)` read the row, indices in
`[-len, 0)` wrap (numba negative indexing), any other index reads whatever
lies beyond the row (`ext`, unconstrained). -/
def mkMem (sig : List ℚ) (ext : ℤ → ℚ) (i : ℤ) : ℚ :=
  if 0 ≤ i ∧ i < (sig.length : ℤ) then sig.getD i.toNat 0
  else if -(sig.length : ℤ) ≤ i ∧ i < 0 then sig.getD (i + sig.length).toNat 0
  else ext i

/-- Python's `abs` on a rational value. -/
def pyabs (a : ℚ) : ℚ := if a < 0 then -a else a

/-- Sentinel for "no reliable direction" (`BACKGROUND_COLOR = -1`). -/
def backgroundColor : ℚ := -1

/-- CPU direction classifier: the per-pixel classification of
`crossing_direction_array_from_roiset` (ScatterPlotToolbox.py lines
268-298), as a function of the detected, ascending, angle-scaled peak list
`peaks` (the source's `peaks = (peaks - z//2) * (360.0 / z)` array;
`amount_of_peaks = peaks.length`).  The pixel's output row has two entries;
a numpy assignment `peak_array[i] = s` broadcasts `s` into both. -/
def crossing_direction_from_peaks (peaks : List ℚ) : ℚ × ℚ :=
  match peaks with
  | [a] => (pymod (270 - a) 180, pymod (270 - a) 180)
  | [a, b] =>
      (pymod (270 - (b + a) / 2) 180, pymod (270 - (b + a) / 2) 180)
  | [a, b, c] =>
      if pyabs (a - c - 180) < 35 then
        (pymod (270 - (c + a) / 2) 180, pymod (270 - b) 180)
      else if pyabs (b - a - 180) < 35 then
        (pymod (270 - (b + a) / 2) 180, pymod (270 - c) 180)
      else if pyabs (b - c - 180) < 35 then
        (pymod (270 - (b + c) / 2) 180, pymod (270 - a) 180)
      else (backgroundColor, backgroundColor)
  | [a, b, c, d] =>
      -- second direction slot is written first, from the pair (1,3) …
      let slot1 := if pyabs (d - b - 180) < 35 then
          pymod (270 - (d + b) / 2) 180 else backgroundColor
      -- … then the pair (0,2): on failure `peak_array[i] = BACKGROUND`
      -- overwrites the whole row, slot 1 included.
      if pyabs (c - a - 180) < 35 then
        (pymod (270 - (c + a) / 2) 180, slot1)
      else (backgroundColor, backgroundColor)
  | _ => (backgroundColor, backgroundColor)

/-- Modelled from the spec: the 3-peak rule as the specification states it
("test each of the 3 candidate opposite-pairs for angular separation within
35° of 180°; if exactly one pair qualifies, emit its midpoint-derived
direction as direction 1 and the leftover peak's own angle-derived value as
direction 2; if none qualify, both directions = BACKGROUND"), with angular
separation of a pair read as the absolute angle difference.  Used only to
compare the stated claim against `crossing_direction_from_peaks`. -/
def three_peak_rule_claim (a b c : ℚ) : ℚ × ℚ :=
  let q01 := pyabs (pyabs (b - a) - 180) < 35
  let q02 := pyabs (pyabs (c - a) - 180) < 35
  let q12 := pyabs (pyabs (c - b) - 180) < 35
  if q02 ∧ ¬q01 ∧ ¬q12 then
    (pymod (270 - (c + a) / 2) 180, pymod (270 - b) 180)
  else if q01 ∧ ¬q02 ∧ ¬q12 then
    (pymod (270 - (b + a) / 2) 180, pymod (270 - c) 180)
  else if q12 ∧ ¬q01 ∧ ¬q02 then
    (pymod (270 - (b + c) / 2) 180, pymod (270 - a) 180)
  else if ¬q01 ∧ ¬q02 ∧ ¬q12 then (backgroundColor, backgroundColor)
  else (backgroundColor, backgroundColor)

/-- Modelled from the spec: the 4-peak rule as the claim states it — pair
(0,2) feeds slot 0 and pair (1,3) feeds slot 1, each pair independently
producing its midpoint direction when within 35° of 180° separation, a
failing pair affecting only its own slot. -/
def four_peak_rule_claim (a b c d : ℚ) : ℚ × ℚ :=
  (if pyabs (c - a - 180) < 35 then pymod (270 - (c + a) / 2) 180
   else backgroundColor,
   if pyabs (d - b - 180) < 35 then pymod (270 - (d + b) / 2) 180
   else backgroundColor)

example : crossing_direction_from_peaks [15, 195, 300] = (165, 150) := by
  with_unfolding_all decide

example : crossing_direction_from_peaks [0, 60, 180] = (-1, -1) := by
  with_unfolding_all decide

example : three_peak_rule_claim 0 60 180 = (0, 30) := by
  with_unfolding_all decide

example : crossing_direction_from_peaks [0, 10, 60, 190] = (-1, -1) := by
  with_unfolding_all decide

example : four_peak_rule_claim 0 10 60 190 = (-1, 170) := by
  with_unfolding_all decide

/-- Peak positions of a 0/1 peak mask from index `i` on: the indices
`j ≥ i` with `mask[j] = 1`, ascending.  Proof-side description of the peak
set the GPU kernels walk over. -/
def peaksFrom (mask : List ℤ) (i : ℕ) : List ℕ :=
  (List.range' i (mask.length - i)).filter (fun j => mask.getD j 0 == 1)

/-- All peak positions of a mask, ascending. -/
def peakIdx (mask : List ℤ) : List ℕ := peaksFrom mask 0

/-- Number of peaks marked in a mask (the pixel's peak count). -/
def countOnes (mask : List ℤ) : ℕ := (peakIdx mask).length

/-- Peak angle used by `_peakdistance` and `_direction`:
`(i + sub_centroid_array[i]) * 360.0 / len(sub_peak_array)`. -/
def peakAngle (cent : List ℚ) (n : ℕ) (i : ℕ) : ℚ :=
  ((i : ℚ) + cent.getD i 0) * 360 / n

/-- Embedding of the partner-search loop shared by `_peakdistance` and
`_direction` (`while right_side_peak > 0 and current_position < len: …`).
State is `(right_side_peak, current_position)`.  The loop moves
`current_position` forward, so a fuel of `mask.length - current_position`
is enough for it to reach its own exit condition; the fuel-0 fallback
returns the state unchanged, exactly what the exhausted source loop holds.
The source reads `sub_peak_array[current_position]` without a bounds
check; this read happens at `current_position = len` only when the walk
runs off the row, which the callers' break conditions rule out for
consistent `number_of_peaks` inputs (the situations all theorems below
are stated for); the embedding gives that read the default `0`. -/
def gpuWalk (mask : List ℤ) : ℕ → ℤ → ℕ → ℤ × ℕ
  | 0, rsp, cur => (rsp, cur)
  | fuel + 1, rsp, cur =>
    if rsp > 0 ∧ cur < mask.length then
      gpuWalk mask fuel (if mask.getD (cur + 1) 0 = 1 then rsp - 1 else rsp)
        (cur + 1)
    else (rsp, cur)

/-- Embedding of the position loop of the GPU `_direction` kernel
(`_toolbox.py` lines 149-169): `i` is the loop index, `curDir` the source's
`current_direction`, `res` the pixel's `result_image` row.  The loop
index only increases, so fuel `mask.length` suffices. -/
def gpuDirectionGo (mask : List ℤ) (cent : List ℚ) (count : ℤ) :
    ℕ → ℕ → ℕ → List ℚ → List ℚ
  | 0, _, _, res => res
  | fuel + 1, i, curDir, res =>
    if i < mask.length then
      if mask.getD i 0 = 1 then
        let left := peakAngle cent mask.length i
        if count = 1 then res.set curDir (pymod (270 - left) 180)
        else if count % 2 = 0 then
          let w := gpuWalk mask (mask.length - i) (count.fdiv 2) i
          let res2 :=
            if w.1 = 0 then
              let right := peakAngle cent mask.length w.2
              if count = 2 ∨ pyabs (180 - (right - left)) < 35 then
                res.set curDir (pymod (270 - (left + right) / 2) 180)
              else res
            else res
          if (curDir + 1 : ℤ) = count.fdiv 2 then res2
          else gpuDirectionGo mask cent count fuel (i + 1) (curDir + 1) res2
        else gpuDirectionGo mask cent count fuel (i + 1) curDir res
      else gpuDirectionGo mask cent count fuel (i + 1) curDir res
    else res

/-- Embedding of the GPU `_direction` kernel for one pixel: the result row
(`num_directions` entries) is first filled with `BACKGROUND_COLOR`, then
the peak loop runs iff `current_number_of_peaks // 2 <= num_directions`
(Python floor division, `Int.fdiv`). -/
def gpuDirection (mask : List ℤ) (cent : List ℚ) (count : ℤ)
    (numDir : ℕ) : List ℚ :=
  if count.fdiv 2 ≤ (numDir : ℤ) then
    gpuDirectionGo mask cent count mask.length 0 0
      (List.replicate numDir backgroundColor)
  else List.replicate numDir backgroundColor

/-- Mask of the concrete two-peak scenario of the spec: a 360-sample
signal with peaks at indices 90 and 270. -/
def twoPeakMask : List ℤ :=
  (List.range 360).map (fun i => if i = 90 ∨ i = 270 then 1 else 0)

/-- Mask of a 24-sample pixel with three peaks, at indices 1, 13 and 20
(angles 15°, 195° and 300°). -/
def threePeakMask : List ℤ :=
  (List.range 24).map (fun i => if i = 1 ∨ i = 13 ∨ i = 20 then 1 else 0)

example : countOnes twoPeakMask = 2 := by with_unfolding_all decide

example : gpuDirection threePeakMask (List.replicate 24 0) 3 2 = [-1, -1] := by
  with_unfolding_all decide

example :
    gpuDirection twoPeakMask (List.replicate 360 0) 2 2 = [90, -1] := by
  with_unfolding_all decide

theorem gpuDirectionGo_three (mask : List ℤ) (cent : List ℚ) :
    ∀ fuel i curDir res,
      gpuDirectionGo mask cent 3 fuel i curDir res = res := by
  intro fuel
  induction fuel with
  | zero => intro i curDir res; rfl
  | succ fuel ih =>
    intro i curDir res
    show (if i < mask.length then _ else res) = res
    split
    · show (if mask.getD i 0 = 1 then _ else
        gpuDirectionGo mask cent 3 fuel (i + 1) curDir res) = res
      split
      · show (if (3 : ℤ) = 1 then _ else _) = res
        rw [if_neg (by decide)]
        show (if (3 : ℤ) % 2 = 0 then _ else
          gpuDirectionGo mask cent 3 fuel (i + 1) curDir res) = res
        rw [if_neg (by decide)]
        exact ih (i + 1) curDir res
      · exact ih (i + 1) curDir res
    · rfl

/-- C1 (counterexample): the two backends do not agree within any 1e-4
tolerance.  One 24-sample pixel with three detected peaks at indices
1, 13, 20 — CPU-scaled angles 15°, 195°, 300° (extended length 48,
`find_peaks` positions 13, 25, 32, `(p - 12) * 15`) — with zero centroid
offsets: the CPU classifier reports directions (165°, 150°) while the GPU
`_direction` kernel reports BACKGROUND in both slots, a pixel-wise
difference of 166 in slot 0. -/
theorem backend_equivalence_counterexample :
    crossing_direction_from_peaks [15, 195, 300] = (165, 150) ∧
    countOnes threePeakMask = 3 ∧
    gpuDirection threePeakMask (List.replicate 24 0) 3 2 = [-1, -1] ∧
    ¬ pyabs (165 - -1) < 1 / 10000 := by
  refine ⟨?_, ?_, ?_, ?_⟩ <;> with_unfolding_all decide

/-- C1 (amended): the backends diverge on three-peak pixels.  The GPU
`_direction` kernel has no code path for an odd peak count above one:
with `number_of_peaks = 3` it leaves every entry of the result row at
`BACKGROUND_COLOR`, for every mask, centroid array and row width, while
the CPU classifier can emit valid directions for three peaks. -/
theorem gpu_direction_three_peaks_background (mask : List ℤ)
    (cent : List ℚ) (numDir : ℕ) :
    gpuDirection mask cent 3 numDir = List.replicate numDir backgroundColor := by
  unfold gpuDirection
  split
  · exact gpuDirectionGo_three mask cent mask.length 0 0 _
  · rfl

/-- C2 (counterexample): peak angles 0°, 60°, 180°.  The pair (0,2) has
angular separation exactly 180°, so it qualifies under the claim's
within-35°-of-180° test and no other pair does; the claim then predicts
directions (0°, 30°).  The code instead compares the signed difference
`peaks[0] - peaks[2] = -180` against 180 and reports BACKGROUND in both
slots. -/
theorem three_peak_rule_counterexample :
    crossing_direction_from_peaks [0, 60, 180] = (-1, -1) ∧
    three_peak_rule_claim 0 60 180 = (0, 30) ∧
    ((-1 : ℚ), (-1 : ℚ)) ≠ ((0 : ℚ), (30 : ℚ)) := by
  refine ⟨?_, ?_, ?_⟩ <;> with_unfolding_all decide

/-- C2 (amended): for an ascending three-peak angle list the CPU
classifier effectively tests only the signed difference of the first two
peaks: the code's three tests compare `peaks[0]-peaks[2]`,
`peaks[1]-peaks[0]` and `peaks[1]-peaks[2]` against 180±35, and the first
and third differences are nonpositive for ascending angles, so those
tests can never pass.  If `peaks[1]-peaks[0]` lies within 35 of 180 the
pixel gets the pair's midpoint direction as direction 1 and the leftover
peak's `(270 - angle) mod 180` as direction 2; otherwise both slots are
BACKGROUND. -/
theorem three_peak_rule_amended (a b c : ℚ) (hab : a ≤ b) (hbc : b ≤ c) :
    crossing_direction_from_peaks [a, b, c] =
      if pyabs (b - a - 180) < 35 then
        (pymod (270 - (b + a) / 2) 180, pymod (270 - c) 180)
      else (backgroundColor, backgroundColor) := by
  have hac : a ≤ c := le_trans hab hbc
  have h1 : ¬ pyabs (a - c - 180) < 35 := by
    rw [pyabs, if_pos (by linarith)]
    push_neg
    linarith
  have h3 : ¬ pyabs (b - c - 180) < 35 := by
    rw [pyabs, if_pos (by linarith)]
    push_neg
    linarith
  show (if pyabs (a - c - 180) < 35 then _ else _) = _
  rw [if_neg h1]
  by_cases h2 : pyabs (b - a - 180) < 35
  · simp only [if_pos h2]
  · simp only [if_neg h2, if_neg h3]

/-- Witness for `three_peak_rule_amended` at angles 10°, 190°, 300°. -/
theorem three_peak_rule_amended_witness :
    (10 : ℚ) ≤ 190 ∧ (190 : ℚ) ≤ 300 ∧
      crossing_direction_from_peaks [10, 190, 300] =
        if pyabs ((190 : ℚ) - 10 - 180) < 35 then
          (pymod (270 - (190 + 10) / 2) 180, pymod (270 - 300) 180)
        else (backgroundColor, backgroundColor) :=
  ⟨by norm_num, by norm_num,
    three_peak_rule_amended 10 190 300 (by norm_num) (by norm_num)⟩

/-- C3 (counterexample): peak angles 0°, 10°, 60°, 190°.  Pair (1,3) has
separation exactly 180° and qualifies; pair (0,2) has separation 60° and
fails.  The claim predicts slot 1 keeps the qualifying pair's direction
170° while slot 0 alone becomes BACKGROUND; in the code the failing pair
(0,2) executes `peak_array[i] = BACKGROUND_COLOR`, a whole-row numpy
assignment that also overwrites slot 1, so the pixel reports (-1, -1). -/
theorem four_peak_rule_counterexample :
    crossing_direction_from_peaks [0, 10, 60, 190] = (-1, -1) ∧
    four_peak_rule_claim 0 10 60 190 = (-1, 170) ∧
    ((-1 : ℚ), (-1 : ℚ)) ≠ ((-1 : ℚ), (170 : ℚ)) := by
  refine ⟨?_, ?_, ?_⟩ <;> with_unfolding_all decide

/-- C3 (amended): in the CPU classifier the pair (1,3) is evaluated first
into slot 1 (midpoint direction, or BACKGROUND on failure), then pair
(0,2): if it qualifies, slot 0 gets its midpoint direction; if it fails,
both slots are set to BACKGROUND, discarding slot 1's result.  Slot 1
therefore carries pair (1,3)'s direction only when pair (0,2) also
qualifies.  (The GPU kernel, by contrast, fills the two slots
independently.) -/
theorem four_peak_rule_amended (a b c d : ℚ) :
    crossing_direction_from_peaks [a, b, c, d] =
      (if pyabs (c - a - 180) < 35 then pymod (270 - (c + a) / 2) 180
       else backgroundColor,
       if pyabs (c - a - 180) < 35 then
         (if pyabs (d - b - 180) < 35 then pymod (270 - (d + b) / 2) 180
          else backgroundColor)
       else backgroundColor) := by
  show (if pyabs (c - a - 180) < 35 then _ else _) = _
  split
  · rfl
  · rfl

/-- C7: one- and two-peak direction.  For a single surviving peak at
scaled angle `a` the CPU classifier reports `(270 - a) mod 180` (numpy
broadcasts it into both output slots); for two surviving peaks it reports
`(270 - (a+b)/2) mod 180` with no separation test — the formulas hold for
every pair of angles.  And the spec's concrete scenario: a 360-sample
pixel with peaks at indices 90 and 270 (zero centroids) has peak count 2,
and the GPU `_direction` kernel reports direction 90° for it. -/
theorem one_two_peak_direction :
    (∀ a : ℚ, crossing_direction_from_peaks [a] =
      (pymod (270 - a) 180, pymod (270 - a) 180)) ∧
    (∀ a b : ℚ, crossing_direction_from_peaks [a, b] =
      (pymod (270 - (b + a) / 2) 180, pymod (270 - (b + a) / 2) 180)) ∧
    countOnes twoPeakMask = 2 ∧
    gpuDirection twoPeakMask (List.replicate 360 0) 2 2 = [90, -1] := by
  refine ⟨fun a => rfl, fun a b => rfl, ?_, ?_⟩ <;> with_unfolding_all decide

/-- Embedding of the position loop of the GPU `_peakdistance` kernel
(`_toolbox.py` lines 111-134): `i` is the loop index, `curPair` the
source's `current_pair`, `res` the pixel's `result_image` row. -/
def gpuDistanceGo (mask : List ℤ) (cent : List ℚ) (count : ℤ) :
    ℕ → ℕ → ℕ → List ℚ → List ℚ
  | 0, _, _, res => res
  | fuel + 1, i, curPair, res =>
    if i < mask.length then
      if mask.getD i 0 = 1 then
        if count = 1 then res.set i 360
        else
          let st :=
            if count % 2 = 0 then
              let left := peakAngle cent mask.length i
              let w := gpuWalk mask (mask.length - i) (count.fdiv 2) i
              let res2 :=
                if w.1 > 0 then res.set i 0
                else
                  let right := peakAngle cent mask.length w.2
                  (res.set i (right - left)).set w.2 (360 - (right - left))
              (res2, curPair + 1)
            else (res, curPair)
          if (st.2 : ℤ) = count.fdiv 2 then st.1
          else gpuDistanceGo mask cent count fuel (i + 1) st.2 st.1
      else gpuDistanceGo mask cent count fuel (i + 1) curPair res
    else res

/-- Embedding of the GPU `_peakdistance` kernel for one pixel; `res` is
the incoming `result_image` row (entries the kernel does not write keep
their incoming value). -/
def gpuDistance (mask : List ℤ) (cent : List ℚ) (count : ℤ)
    (res : List ℚ) : List ℚ :=
  gpuDistanceGo mask cent count mask.length 0 0 res

/-- The peak-distance result the claim predicts for an even surviving
count `2k`: walking the pairs `(P[c], P[c+k])` for `c = 0, …, k-1` in
ascending order, the first peak of each pair records the angular gap to
its partner and the partner records the complementary gap `360 - gap`.
First argument of the recursion is the number of pairs still to write. -/
def distExpected (P : List ℕ) (cent : List ℚ) (n k : ℕ) :
    ℕ → ℕ → List ℚ → List ℚ
  | 0, _, res => res
  | m + 1, c, res =>
    let left := peakAngle cent n (P.getD c 0)
    let right := peakAngle cent n (P.getD (c + k) 0)
    distExpected P cent n k m (c + 1)
      ((res.set (P.getD c 0) (right - left)).set (P.getD (c + k) 0)
        (360 - (right - left)))

example :
    gpuDistance [1, 0, 1, 0] (List.replicate 4 0) 2 (List.replicate 4 0) =
      [180, 0, 180, 0] := by
  with_unfolding_all decide

example :
    distExpected (peakIdx [1, 0, 1, 0]) (List.replicate 4 0) 4 1 1 0
      (List.replicate 4 0) = [180, 0, 180, 0] := by
  with_unfolding_all decide

example :
    gpuDistance [0, 1, 0, 0] (List.replicate 4 0) 1 (List.replicate 4 0) =
      [0, 360, 0, 0] := by
  with_unfolding_all decide

example :
    gpuDistance [1, 0, 1, 0, 1, 0, 1, 0] (List.replicate 8 0) 4
      (List.replicate 8 0) = [180, 0, 180, 0, 180, 0, 180, 0] := by
  with_unfolding_all decide

theorem peaksFrom_stop (mask : List ℤ) (i : ℕ) (h : mask.length ≤ i) :
    peaksFrom mask i = [] := by
  unfold peaksFrom
  rw [Nat.sub_eq_zero_of_le h]
  rfl

theorem peaksFrom_succ (mask : List ℤ) (i : ℕ) (h : i < mask.length) :
    peaksFrom mask i =
      if mask.getD i 0 = 1 then i :: peaksFrom mask (i + 1)
      else peaksFrom mask (i + 1) := by
  unfold peaksFrom
  have hn : mask.length - i = (mask.length - (i + 1)) + 1 := by omega
  rw [hn, List.range'_succ, List.filter_cons]
  by_cases hm : mask.getD i 0 = 1
  · rw [if_pos hm, if_pos (by simpa using hm)]
  · rw [if_neg hm, if_neg (by simpa using hm)]

theorem peaksFrom_lt_of_ne_nil (mask : List ℤ) (i : ℕ)
    (h : peaksFrom mask i ≠ []) : i < mask.length := by
  by_contra hc
  exact h (peaksFrom_stop mask i (by omega))

theorem getD_drop_nat (l : List ℕ) (m j : ℕ) :
    (l.drop m).getD j 0 = l.getD (m + j) 0 := by
  simp [List.getD_eq_getElem?_getD, List.getElem?_drop]

theorem gpuWalk_zero (mask : List ℤ) :
    ∀ fuel cur, gpuWalk mask fuel 0 cur = (0, cur) := by
  intro fuel cur
  cases fuel with
  | zero => rfl
  | succ fuel => simp [gpuWalk]

theorem gpuWalk_finds (mask : List ℤ) :
    ∀ fuel cur m, m + 1 ≤ (peaksFrom mask (cur + 1)).length →
      mask.length - cur ≤ fuel →
      gpuWalk mask fuel ((m : ℤ) + 1) cur =
        (0, ((peaksFrom mask (cur + 1)).getD m 0 : ℕ)) := by
  intro fuel
  induction fuel with
  | zero =>
    intro cur m hlen hfuel
    have : peaksFrom mask (cur + 1) = [] :=
      peaksFrom_stop mask (cur + 1) (by omega)
    rw [this] at hlen
    simp at hlen
  | succ fuel ih =>
    intro cur m hlen hfuel
    have hne : peaksFrom mask (cur + 1) ≠ [] := by
      intro hnil; rw [hnil] at hlen; simp at hlen
    have hcur1 : cur + 1 < mask.length := peaksFrom_lt_of_ne_nil mask _ hne
    have hcur : cur < mask.length := by omega
    rw [gpuWalk, if_pos ⟨by positivity, by exact_mod_cast hcur⟩]
    by_cases hm : mask.getD (cur + 1) 0 = 1
    · rw [peaksFrom_succ mask (cur + 1) hcur1, if_pos hm] at hlen ⊢
      cases m with
      | zero =>
        rw [if_pos hm]
        have h0 : ((0 : ℕ) : ℤ) + 1 - 1 = 0 := by norm_num
        rw [h0, gpuWalk_zero]
        rfl
      | succ m' =>
        rw [if_pos hm]
        have hcast : ((m' + 1 : ℕ) : ℤ) + 1 - 1 = (m' : ℤ) + 1 := by
          push_cast; ring
        rw [hcast, ih (cur + 1) m' (by simpa using hlen) (by omega)]
        rfl
    · rw [peaksFrom_succ mask (cur + 1) hcur1, if_neg hm] at hlen ⊢
      rw [if_neg hm]
      exact ih (cur + 1) m hlen (by omega)

theorem gpuDistanceGo_one (mask : List ℤ) (cent : List ℚ) :
    ∀ fuel i c res p, peaksFrom mask i = [p] →
      mask.length - i ≤ fuel →
      gpuDistanceGo mask cent 1 fuel i c res = res.set p 360 := by
  intro fuel
  induction fuel with
  | zero =>
    intro i c res p hP hfuel
    have := peaksFrom_lt_of_ne_nil mask i (by rw [hP]; simp)
    omega
  | succ fuel ih =>
    intro i c res p hP hfuel
    have hi : i < mask.length :=
      peaksFrom_lt_of_ne_nil mask i (by rw [hP]; simp)
    rw [peaksFrom_succ mask i hi] at hP
    simp only [gpuDistanceGo, if_pos hi]
    by_cases hm : mask.getD i 0 = 1
    · rw [if_pos hm] at hP ⊢
      have hip : i = p := List.head_eq_of_cons_eq hP
      simp only [if_true, hip]
    · rw [if_neg hm] at hP ⊢
      exact ih (i + 1) c res p hP (by omega)

theorem gpuDistanceGo_even (mask : List ℤ) (cent : List ℚ) (k : ℕ)
    (hk : 1 ≤ k) (hP : (peakIdx mask).length = 2 * k) :
    ∀ fuel i c res, peaksFrom mask i = (peakIdx mask).drop c →
      c < k → mask.length - i ≤ fuel →
      gpuDistanceGo mask cent (2 * k : ℕ) fuel i c res =
        distExpected (peakIdx mask) cent mask.length k (k - c) c res := by
  have hfd : ((2 * k : ℕ) : ℤ).fdiv 2 = (k : ℤ) := by
    rw [Int.fdiv_eq_ediv _ (by omega)]
    push_cast
    rw [Int.mul_ediv_cancel_left _ (by norm_num)]
  intro fuel
  induction fuel with
  | zero =>
    intro i c res hdrop hc hfuel
    have hne : peaksFrom mask i ≠ [] := by
      rw [hdrop]
      intro hnil
      have := List.drop_eq_nil_iff_le.mp hnil
      omega
    have := peaksFrom_lt_of_ne_nil mask i hne
    omega
  | succ fuel ih =>
    intro i c res hdrop hc hfuel
    have hne : peaksFrom mask i ≠ [] := by
      rw [hdrop]
      intro hnil
      have := List.drop_eq_nil_iff_le.mp hnil
      omega
    have hi : i < mask.length := peaksFrom_lt_of_ne_nil mask i hne
    simp only [gpuDistanceGo, if_pos hi]
    by_cases hm : mask.getD i 0 = 1
    · rw [peaksFrom_succ mask i hi, if_pos hm] at hdrop
      rw [if_pos hm]
      rw [if_neg (by exact_mod_cast (by omega : ¬ (2 * k : ℤ) = 1))]
      have heven : ((2 * k : ℕ) : ℤ) % 2 = 0 := by push_cast; omega
      rw [if_pos heven]
      -- the head and tail of the remaining peak list
      have hhead : (peakIdx mask).getD c 0 = i := by
        have h0 : ((peakIdx mask).drop c).getD 0 0 = i := by
          rw [← hdrop]; rfl
        rw [getD_drop_nat] at h0
        simpa using h0
      have htail : peaksFrom mask (i + 1) = (peakIdx mask).drop (c + 1) := by
        have := congrArg List.tail hdrop
        simpa [List.tail_drop] using this
      -- the walk lands on the partner peak
      have hlen1 : (peaksFrom mask (i + 1)).length = 2 * k - (c + 1) := by
        rw [htail, List.length_drop, hP]
      have hwalk :
          gpuWalk mask (mask.length - i) (((2 * k : ℕ) : ℤ).fdiv 2) i =
            (0, ((peakIdx mask).getD (c + k) 0 : ℕ)) := by
        rw [hfd]
        have hkc : (k : ℤ) = ((k - 1 : ℕ) : ℤ) + 1 := by push_cast [hk]; omega
        rw [hkc, gpuWalk_finds mask (mask.length - i) i (k - 1)
          (by omega) (le_refl _)]
        rw [htail, getD_drop_nat]
        have : c + 1 + (k - 1) = c + k := by omega
        rw [this]
      rw [hwalk]
      have hnotpos : ¬ ((0 : ℤ) > 0) := by norm_num
      simp only [hnotpos, if_false, hfd]
      by_cases hbreak : c + 1 = k
      · rw [if_pos (by exact_mod_cast congrArg (Nat.cast : ℕ → ℤ) hbreak)]
        have hkc : k - c = 1 := by omega
        rw [hkc]
        simp only [distExpected, hhead, hbreak]
      · rw [if_neg (by
          intro hcast
          exact hbreak (by exact_mod_cast hcast))]
        have hkc : k - c = (k - (c + 1)) + 1 := by omega
        rw [hkc]
        simp only [distExpected, hhead]
        exact ih (i + 1) (c + 1) _ htail (by omega) (by omega)
    · rw [peaksFrom_succ mask i hi, if_neg hm] at hdrop
      rw [if_neg hm]
      exact ih (i + 1) c res hdrop hc (by omega)

/-- C4: the GPU `_peakdistance` kernel, for a pixel whose
`number_of_peaks` input equals the number of marked peaks.  A single-peak
pixel records distance exactly 360 at its peak.  For an even count `2k`
the result equals `distExpected`: the partner of the `c`-th peak (for
`c < k`) is the peak `k` places further on in ascending index order, the
first peak of each pair records the angular gap `right - left` and the
partner records the complementary gap `360 - (right - left)`; entries the
kernel does not write keep their incoming value.  Within the loop the
partner search walks forward `count/2` peaks and, for these consistent
inputs, always finds the partner before running off the row. -/
theorem peakdistance_pairing (mask : List ℤ) (cent : List ℚ)
    (res : List ℚ) (count : ℤ)
    (hcount : count = (countOnes mask : ℤ)) :
    (count = 1 →
      gpuDistance mask cent count res =
        res.set ((peakIdx mask).getD 0 0) 360) ∧
    (∀ k : ℕ, count = (2 * k : ℕ) → 1 ≤ k →
      gpuDistance mask cent count res =
        distExpected (peakIdx mask) cent mask.length k k 0 res) := by
  constructor
  · intro h1
    have hlen : (peakIdx mask).length = 1 := by
      have : ((countOnes mask : ℕ) : ℤ) = 1 := by rw [← hcount, h1]
      exact_mod_cast this
    obtain ⟨p, hp⟩ : ∃ p, peakIdx mask = [p] := by
      match hm : peakIdx mask with
      | [p] => exact ⟨p, rfl⟩
      | [] => rw [hm] at hlen; simp at hlen
      | p :: q :: l => rw [hm] at hlen; simp at hlen
    have hget : (peakIdx mask).getD 0 0 = p := by rw [hp]; rfl
    rw [h1, hget]
    exact gpuDistanceGo_one mask cent mask.length 0 0 res p hp (by omega)
  · intro k hk hk1
    have hlen : (peakIdx mask).length = 2 * k := by
      have : ((countOnes mask : ℕ) : ℤ) = ((2 * k : ℕ) : ℤ) := by
        rw [← hcount, hk]
      exact_mod_cast this
    rw [hk]
    have := gpuDistanceGo_even mask cent k hk1 hlen mask.length 0 0 res
      (by rw [List.drop_zero]; rfl) (by omega) (by omega)
    simpa using this

/-- Witness for `peakdistance_pairing`: a 4-sample pixel with peaks at
indices 0 and 2, count 2 = 2·1. -/
theorem peakdistance_pairing_witness :
    (2 : ℤ) = (countOnes [1, 0, 1, 0] : ℤ) ∧
    (2 : ℤ) = ((2 * 1 : ℕ) : ℤ) ∧ 1 ≤ 1 ∧
    gpuDistance [1, 0, 1, 0] (List.replicate 4 0) 2 (List.replicate 4 0) =
      distExpected (peakIdx [1, 0, 1, 0]) (List.replicate 4 0) 4 1 1 0
        (List.replicate 4 0) :=
  ⟨by with_unfolding_all decide, by norm_num, le_refl 1,
    (peakdistance_pairing [1, 0, 1, 0] (List.replicate 4 0)
      (List.replicate 4 0) 2 (by with_unfolding_all decide)).2 1
      (by norm_num) (le_refl 1)⟩

/-- Embedding of the left scan of the GPU `_prominence` kernel
(`_toolbox.py` lines 44-51): from `i` downward while `i_min <= i` and the
sample does not exceed the peak value `v`, tracking the running minimum;
the window counter `wlen` (source initial value `len - 1`) is the fuel.
The source reads `sub_image[i]` with a plain (possibly negative) index;
the `i_min = -len/2` bound keeps it inside numba's negative-wrap range,
where the read equals `sigAt sig i`. -/
def promLeft (sig : List ℚ) (v iMin : ℚ) : ℕ → ℤ → ℚ → ℚ
  | 0, _, lmin => lmin
  | wlen + 1, i, lmin =>
    if iMin ≤ (i : ℚ) ∧ sigAt sig i ≤ v then
      promLeft sig v iMin wlen (i - 1) (min lmin (sigAt sig i))
    else lmin

/-- Embedding of the right scan of the GPU `_prominence` kernel
(`_toolbox.py` lines 53-60): from `i` upward while `i <= i_max` and the
sample (read at `i % len`) does not exceed `v`. -/
def promRight (sig : List ℚ) (v : ℚ) (iMax : ℤ) : ℕ → ℤ → ℚ → ℚ
  | 0, _, rmin => rmin
  | wlen + 1, i, rmin =>
    if i ≤ iMax ∧ sigAt sig i ≤ v then
      promRight sig v iMax wlen (i + 1) (min rmin (sigAt sig i))
    else rmin

/-- Embedding of the GPU `_prominence` kernel at one position of one
pixel: for a marked peak, `value(pos) - max(left_min, right_min)` with
both scans started at `pos` with initial minimum `value(pos)` and window
`len - 1`; non-peak positions get 0. -/
def prominenceAt (sig : List ℚ) (mask : List ℤ) (pos : ℕ) : ℚ :=
  if mask.getD pos 0 = 1 then
    sigAt sig pos -
      max
        (promLeft sig (sigAt sig pos) (-(mask.length : ℚ) / 2)
          (mask.length - 1) pos (sigAt sig pos))
        (promRight sig (sigAt sig pos) (((3 * mask.length) / 2 : ℕ) : ℤ)
          (mask.length - 1) pos (sigAt sig pos))
  else 0

/-- Modelled from the spec: the left scan as claim C8 states it, stopping
only at the first sample strictly exceeding the peak value or after the
`n - 1` sample window, with circular indexing throughout. -/
def promLeftClaim (sig : List ℚ) (v : ℚ) : ℕ → ℤ → ℚ → ℚ
  | 0, _, lmin => lmin
  | wlen + 1, i, lmin =>
    if sigAt sig i ≤ v then
      promLeftClaim sig v wlen (i - 1) (min lmin (sigAt sig i))
    else lmin

/-- Modelled from the spec: the right scan as claim C8 states it. -/
def promRightClaim (sig : List ℚ) (v : ℚ) : ℕ → ℤ → ℚ → ℚ
  | 0, _, rmin => rmin
  | wlen + 1, i, rmin =>
    if sigAt sig i ≤ v then
      promRightClaim sig v wlen (i + 1) (min rmin (sigAt sig i))
    else rmin

/-- Modelled from the spec: the prominence claim C8 describes — scans
stopped only by a strictly exceeding sample or the `n - 1` window,
prominence `value(p) - max(left_min, right_min)`, 0 at non-peaks. -/
def prominenceClaimAt (sig : List ℚ) (mask : List ℤ) (pos : ℕ) : ℚ :=
  if mask.getD pos 0 = 1 then
    sigAt sig pos -
      max
        (promLeftClaim sig (sigAt sig pos) (mask.length - 1) pos
          (sigAt sig pos))
        (promRightClaim sig (sigAt sig pos) (mask.length - 1) pos
          (sigAt sig pos))
  else 0

/-- Descending index window `[i, i-1, …, i-(w-1)]` of a leftward scan. -/
def scanIdxDown (i : ℤ) : ℕ → List ℤ
  | 0 => []
  | w + 1 => i :: scanIdxDown (i - 1) w

/-- Ascending index window `[i, i+1, …, i+(w-1)]` of a rightward scan. -/
def scanIdxUp (i : ℤ) : ℕ → List ℤ
  | 0 => []
  | w + 1 => i :: scanIdxUp (i + 1) w

theorem promLeft_eq_foldl (sig : List ℚ) (v iMin : ℚ) :
    ∀ w i lmin,
      promLeft sig v iMin w i lmin =
        List.foldl (fun m j => min m (sigAt sig j)) lmin
          ((scanIdxDown i w).takeWhile
            (fun j => decide (iMin ≤ (j : ℚ)) && decide (sigAt sig j ≤ v))) := by
  intro w
  induction w with
  | zero => intro i lmin; rfl
  | succ w ih =>
    intro i lmin
    show (if iMin ≤ (i : ℚ) ∧ sigAt sig i ≤ v then _ else _) = _
    rw [scanIdxDown, List.takeWhile_cons]
    by_cases hg : iMin ≤ (i : ℚ) ∧ sigAt sig i ≤ v
    · rw [if_pos hg, if_pos (by simp [hg.1, hg.2]), List.foldl_cons, ih]
    · rw [if_neg hg]
      rw [if_neg (by
        rw [Bool.and_eq_true, decide_eq_true_iff, decide_eq_true_iff]
        exact hg)]
      rfl

theorem promRight_eq_foldl (sig : List ℚ) (v : ℚ) (iMax : ℤ) :
    ∀ w i rmin,
      promRight sig v iMax w i rmin =
        List.foldl (fun m j => min m (sigAt sig j)) rmin
          ((scanIdxUp i w).takeWhile
            (fun j => decide (j ≤ iMax) && decide (sigAt sig j ≤ v))) := by
  intro w
  induction w with
  | zero => intro i rmin; rfl
  | succ w ih =>
    intro i rmin
    show (if i ≤ iMax ∧ sigAt sig i ≤ v then _ else _) = _
    rw [scanIdxUp, List.takeWhile_cons]
    by_cases hg : i ≤ iMax ∧ sigAt sig i ≤ v
    · rw [if_pos hg, if_pos (by simp [hg.1, hg.2]), List.foldl_cons, ih]
    · rw [if_neg hg]
      rw [if_neg (by
        rw [Bool.and_eq_true, decide_eq_true_iff, decide_eq_true_iff]
        exact hg)]
      rfl

/-- C8 (amended): prominence of a marked peak is `value(p) - max(left
minimum, right minimum)` where each side's minimum ranges over the prefix
of the scan window kept while (a) the sample does not strictly exceed
`value(p)` and (b) the running index stays inside the source's absolute
bounds — `i_min = -len/2` on the left and `i_max = ⌊1.5·len⌋` on the
right — the prefix being cut off after `len - 1` samples in any case.
(The original claim omitted the absolute index bounds (b), which can stop
a scan before the `n-1` window is exhausted.)  Non-peak positions have
prominence 0. -/
theorem prominence_scan_characterization (sig : List ℚ) (mask : List ℤ)
    (pos : ℕ) (hpk : mask.getD pos 0 = 1) :
    prominenceAt sig mask pos =
      sigAt sig pos -
        max
          (List.foldl (fun m j => min m (sigAt sig j)) (sigAt sig pos)
            ((scanIdxDown pos (mask.length - 1)).takeWhile
              (fun j => decide (-(mask.length : ℚ) / 2 ≤ (j : ℚ)) &&
                decide (sigAt sig j ≤ sigAt sig pos))))
          (List.foldl (fun m j => min m (sigAt sig j)) (sigAt sig pos)
            ((scanIdxUp pos (mask.length - 1)).takeWhile
              (fun j => decide (j ≤ (((3 * mask.length) / 2 : ℕ) : ℤ)) &&
                decide (sigAt sig j ≤ sigAt sig pos)))) ∧
      ∀ q, mask.getD q 0 ≠ 1 → prominenceAt sig mask q = 0 := by
  constructor
  · rw [prominenceAt, if_pos hpk, promLeft_eq_foldl, promRight_eq_foldl]
  · intro q hq
    rw [prominenceAt, if_neg hq]

/-- Witness for `prominence_scan_characterization` on an 8-sample pixel
with its peak at index 0. -/
theorem prominence_scan_characterization_witness :
    (([1, 0, 0, 0, 0, 0, 0, 0] : List ℤ).getD 0 0 = 1) ∧
    prominenceAt [10, 5, 5, 0, 5, 5, 5, 5] [1, 0, 0, 0, 0, 0, 0, 0] 0 =
      sigAt [10, 5, 5, 0, 5, 5, 5, 5] 0 -
        max
          (List.foldl
            (fun m j => min m (sigAt [10, 5, 5, 0, 5, 5, 5, 5] j)) 10
            [0, -1, -2, -3, -4])
          (List.foldl
            (fun m j => min m (sigAt [10, 5, 5, 0, 5, 5, 5, 5] j)) 10
            [0, 1, 2, 3, 4, 5, 6]) := by
  constructor
  · decide
  · have h := (prominence_scan_characterization [10, 5, 5, 0, 5, 5, 5, 5]
      [1, 0, 0, 0, 0, 0, 0, 0] 0 (by decide)).1
    rw [h]
    with_unfolding_all rfl

/-- C8 (counterexample): signal `[10, 5, 5, 0, 5, 5, 5, 5]` with its peak
at index 0.  The claim's scans (stopping only at a strictly exceeding
sample or after `n-1 = 7` samples, circular) both reach the minimum 0 at
index 3, predicting prominence 10; the code's left scan is additionally
stopped by `i_min = -len/2 = -4` after wrapping only to index 4, sees
left minimum 5, and reports prominence 5. -/
theorem prominence_window_counterexample :
    prominenceAt [10, 5, 5, 0, 5, 5, 5, 5] [1, 0, 0, 0, 0, 0, 0, 0] 0 = 5 ∧
    prominenceClaimAt [10, 5, 5, 0, 5, 5, 5, 5]
      [1, 0, 0, 0, 0, 0, 0, 0] 0 = 10 ∧
    (5 : ℚ) ≠ 10 := by
  refine ⟨?_, ?_, ?_⟩ <;> with_unfolding_all decide

/-- Embedding of the left walk of the GPU `_peakwidth` kernel
(`_toolbox.py` lines 80-82): `while i_min < i and height < sub_image[i]:
i -= 1`.  The row is read through a total memory function `f` (see
`mkMem`): the walk's own guard keeps `i` above `i_min = -len/2`, inside
numba's negative-wrap range.  The index decreases while it exceeds
`⌊i_min⌋`, so any fuel of at least `i - ⌊i_min⌋` lets the loop reach its
own exit condition. -/
def widthLeftWalk (f : ℤ → ℚ) (iMin height : ℚ) : ℕ → ℤ → ℤ
  | 0, i => i
  | fuel + 1, i =>
    if iMin < (i : ℚ) ∧ height < f i then
      widthLeftWalk f iMin height fuel (i - 1)
    else i

/-- Embedding of the right walk of the GPU `_peakwidth` kernel
(`_toolbox.py` lines 89-91): `while i < i_max and height < sub_image[i]:
i += 1`.  Unlike `_prominence`, this scan reads `sub_image[i]` without a
modulus, so its reads can leave the row (see
`peakwidth_right_scan_reads_past_end`). -/
def widthRightWalk (f : ℤ → ℚ) (iMax : ℤ) (height : ℚ) : ℕ → ℤ → ℤ
  | 0, i => i
  | fuel + 1, i =>
    if i < iMax ∧ height < f i then
      widthRightWalk f iMax height fuel (i + 1)
    else i

/-- Left interpolated intersection point of `_peakwidth` (lines 80-86):
the walk's stop index, plus the linear interpolation step
`(height - sub_image[i]) / (sub_image[i+1] - sub_image[i])` when the
stop sample lies strictly below the intersection height. -/
def widthLip (f : ℤ → ℚ) (n : ℕ) (pos : ℤ) (height : ℚ) : ℚ :=
  let li := widthLeftWalk f (-(n : ℚ) / 2) height (pos + n + 1).toNat pos
  (li : ℚ) +
    (if f li < height then (height - f li) / (f (li + 1) - f li) else 0)

/-- Right interpolated intersection point of `_peakwidth` (lines 89-95). -/
def widthRip (f : ℤ → ℚ) (n : ℕ) (pos : ℤ) (height : ℚ) : ℚ :=
  let iMax : ℤ := ((3 * n) / 2 : ℕ)
  let ri := widthRightWalk f iMax height (iMax - pos + 1).toNat pos
  (ri : ℚ) -
    (if f ri < height then (height - f ri) / (f (ri - 1) - f ri) else 0)

/-- Embedding of the GPU `_peakwidth` computation for one marked peak
(`_toolbox.py` lines 76-97): intersection height
`sub_image[pos] - prominence * target_height`, then
`right_ip - left_ip`. -/
def widthAt (f : ℤ → ℚ) (n : ℕ) (pos : ℤ) (prom targetHeight : ℚ) : ℚ :=
  widthRip f n pos (f pos - prom * targetHeight) -
    widthLip f n pos (f pos - prom * targetHeight)

theorem widthLeftWalk_le (f : ℤ → ℚ) (iMin height : ℚ) :
    ∀ fuel i, widthLeftWalk f iMin height fuel i ≤ i := by
  intro fuel
  induction fuel with
  | zero => intro i; exact le_refl i
  | succ fuel ih =>
    intro i
    show (if iMin < (i : ℚ) ∧ height < f i then
      widthLeftWalk f iMin height fuel (i - 1) else i) ≤ i
    split
    · exact le_trans (ih (i - 1)) (by omega)
    · exact le_refl i

theorem widthLeftWalk_spec (f : ℤ → ℚ) (iMin height : ℚ) :
    ∀ fuel i, (i - ⌊iMin⌋).toNat ≤ fuel →
      ¬ (iMin < (widthLeftWalk f iMin height fuel i : ℚ) ∧
          height < f (widthLeftWalk f iMin height fuel i)) ∧
      ∀ j : ℤ, widthLeftWalk f iMin height fuel i < j → j ≤ i →
        iMin < (j : ℚ) ∧ height < f j := by
  intro fuel
  induction fuel with
  | zero =>
    intro i hfuel
    have hr : widthLeftWalk f iMin height 0 i = i := rfl
    rw [hr]
    have hi : i ≤ ⌊iMin⌋ := by omega
    constructor
    · intro hc
      have h1 : (i : ℚ) ≤ iMin :=
        le_trans (by exact_mod_cast hi) (Int.floor_le iMin)
      exact absurd hc.1 (not_lt.mpr h1)
    · intro j hj hji
      omega
  | succ fuel ih =>
    intro i hfuel
    have hstep : widthLeftWalk f iMin height (fuel + 1) i =
        if iMin < (i : ℚ) ∧ height < f i then
          widthLeftWalk f iMin height fuel (i - 1)
        else i := rfl
    by_cases hg : iMin < (i : ℚ) ∧ height < f i
    · rw [hstep, if_pos hg]
      have hfl : ⌊iMin⌋ < i := Int.floor_lt.mpr hg.1
      have hrec := ih (i - 1) (by omega)
      refine ⟨hrec.1, ?_⟩
      intro j hj hji
      rcases lt_or_eq_of_le hji with hlt | heq
      · exact hrec.2 j hj (by omega)
      · rw [heq]; exact hg
    · rw [hstep, if_neg hg]
      exact ⟨hg, fun j hj hji => absurd (lt_of_lt_of_le hj hji)
        (lt_irrefl i)⟩

theorem widthLeftWalk_mono (f : ℤ → ℚ) (iMin g1 g2 : ℚ) (hg : g1 ≤ g2) :
    ∀ fuel i,
      widthLeftWalk f iMin g1 fuel i ≤ widthLeftWalk f iMin g2 fuel i := by
  intro fuel
  induction fuel with
  | zero => intro i; exact le_refl i
  | succ fuel ih =>
    intro i
    have h1 : widthLeftWalk f iMin g1 (fuel + 1) i =
        if iMin < (i : ℚ) ∧ g1 < f i then
          widthLeftWalk f iMin g1 fuel (i - 1) else i := rfl
    have h2 : widthLeftWalk f iMin g2 (fuel + 1) i =
        if iMin < (i : ℚ) ∧ g2 < f i then
          widthLeftWalk f iMin g2 fuel (i - 1) else i := rfl
    rw [h1, h2]
    by_cases hg2 : iMin < (i : ℚ) ∧ g2 < f i
    · rw [if_pos hg2, if_pos ⟨hg2.1, lt_of_le_of_lt hg hg2.2⟩]
      exact ih (i - 1)
    · rw [if_neg hg2]
      split
      · exact le_trans (widthLeftWalk_le f iMin g1 fuel (i - 1)) (by omega)
      · exact le_refl i

theorem widthLip_mono_and_le (f : ℤ → ℚ) (n : ℕ) (pos : ℤ) (g1 g2 : ℚ)
    (h12 : g1 ≤ g2) (hle : g2 ≤ f pos) :
    widthLip f n pos g1 ≤ widthLip f n pos g2 ∧
      widthLip f n pos g2 ≤ (pos : ℚ) := by
  have hfloor : -(n : ℤ) ≤ ⌊-(n : ℚ) / 2⌋ := by
    rw [Int.le_floor]
    have hn : (0 : ℚ) ≤ (n : ℚ) := by positivity
    push_cast
    linarith
  have hfuel : (pos - ⌊-(n : ℚ) / 2⌋).toNat ≤ (pos + n + 1).toNat := by
    apply Int.toNat_le_toNat
    omega
  set l1 := widthLeftWalk f (-(n : ℚ) / 2) g1 (pos + n + 1).toNat pos with hl1
  set l2 := widthLeftWalk f (-(n : ℚ) / 2) g2 (pos + n + 1).toNat pos with hl2
  have hmono : l1 ≤ l2 :=
    widthLeftWalk_mono f (-(n : ℚ) / 2) g1 g2 h12 (pos + n + 1).toNat pos
  have hle1 : l1 ≤ pos := widthLeftWalk_le f (-(n : ℚ) / 2) g1 _ pos
  have hle2 : l2 ≤ pos := widthLeftWalk_le f (-(n : ℚ) / 2) g2 _ pos
  have hs1 := widthLeftWalk_spec f (-(n : ℚ) / 2) g1 (pos + n + 1).toNat
    pos hfuel
  have hs2 := widthLeftWalk_spec f (-(n : ℚ) / 2) g2 (pos + n + 1).toNat
    pos hfuel
  rw [← hl1] at hs1
  rw [← hl2] at hs2
  have hlip1 : widthLip f n pos g1 = (l1 : ℚ) +
      (if f l1 < g1 then (g1 - f l1) / (f (l1 + 1) - f l1) else 0) := rfl
  have hlip2 : widthLip f n pos g2 = (l2 : ℚ) +
      (if f l2 < g2 then (g2 - f l2) / (f (l2 + 1) - f l2) else 0) := rfl
  -- the second conjunct: the left intersection point never exceeds `pos`
  have hlip2le : widthLip f n pos g2 ≤ (pos : ℚ) := by
    rw [hlip2]
    by_cases hi2 : f l2 < g2
    · have hl2pos : l2 < pos := by
        rcases lt_or_eq_of_le hle2 with h | h
        · exact h
        · rw [h] at hi2
          exact absurd (lt_of_lt_of_le hi2 hle) (lt_irrefl _)
      have hj := (hs2.2 (l2 + 1) (by omega) (by omega)).2
      have hD : 0 < f (l2 + 1) - f l2 := by linarith
      have hfrac : (g2 - f l2) / (f (l2 + 1) - f l2) < 1 :=
        (div_lt_one hD).mpr (by linarith)
      rw [if_pos hi2]
      have hcast : (l2 : ℚ) + 1 ≤ (pos : ℚ) := by exact_mod_cast hl2pos
      linarith
    · rw [if_neg hi2]
      have : (l2 : ℚ) ≤ (pos : ℚ) := by exact_mod_cast hle2
      linarith
  refine ⟨?_, hlip2le⟩
  rw [hlip1, hlip2]
  rcases lt_or_eq_of_le hmono with hlt | heq
  · -- `l1 < l2`: left ip at `g1` stays below `l1 + 1 ≤ l2` and the ip at
    -- `g2` is at least `l2`
    have hub : (l1 : ℚ) +
        (if f l1 < g1 then (g1 - f l1) / (f (l1 + 1) - f l1) else 0) ≤
          (l1 : ℚ) + 1 := by
      by_cases hi1 : f l1 < g1
      · have hl1pos : l1 < pos := by omega
        have hj := (hs1.2 (l1 + 1) (by omega) (by omega)).2
        have hD : 0 < f (l1 + 1) - f l1 := by linarith
        have hfrac : (g1 - f l1) / (f (l1 + 1) - f l1) < 1 :=
          (div_lt_one hD).mpr (by linarith)
        rw [if_pos hi1]
        linarith
      · rw [if_neg hi1]
        linarith
    have hlb : (l2 : ℚ) ≤ (l2 : ℚ) +
        (if f l2 < g2 then (g2 - f l2) / (f (l2 + 1) - f l2) else 0) := by
      by_cases hi2 : f l2 < g2
      · have hl2pos : l2 < pos := by
          rcases lt_or_eq_of_le hle2 with h | h
          · exact h
          · rw [h] at hi2
            exact absurd (lt_of_lt_of_le hi2 hle) (lt_irrefl _)
        have hj := (hs2.2 (l2 + 1) (by omega) (by omega)).2
        have hD : 0 < f (l2 + 1) - f l2 := by linarith
        have hfrac : 0 ≤ (g2 - f l2) / (f (l2 + 1) - f l2) :=
          le_of_lt (div_pos (by linarith) hD)
        rw [if_pos hi2]
        linarith
      · rw [if_neg hi2]
        linarith
    have hcast : (l1 : ℚ) + 1 ≤ (l2 : ℚ) := by exact_mod_cast hlt
    linarith
  · -- equal stop indices
    rw [← heq]
    by_cases hi1 : f l1 < g1
    · have hi2 : f l1 < g2 := lt_of_lt_of_le hi1 h12
      have hl1pos : l1 < pos := by
        rcases lt_or_eq_of_le hle1 with h | h
        · exact h
        · rw [h] at hi2
          exact absurd (lt_of_lt_of_le hi2 hle) (lt_irrefl _)
      have hj2 : g2 < f (l1 + 1) :=
        (hs2.2 (l1 + 1) (by omega) (by omega)).2
      have hD : 0 < f (l1 + 1) - f l1 := by linarith
      rw [if_pos hi1, if_pos hi2]
      have : (g1 - f l1) / (f (l1 + 1) - f l1) ≤
          (g2 - f l1) / (f (l1 + 1) - f l1) :=
        (div_le_div_right hD).mpr (by linarith)
      linarith
    · by_cases hi2 : f l1 < g2
      · have hl1pos : l1 < pos := by
          rcases lt_or_eq_of_le hle1 with h | h
          · exact h
          · rw [h] at hi2
            exact absurd (lt_of_lt_of_le hi2 hle) (lt_irrefl _)
        have hj2 : g2 < f (l1 + 1) :=
          (hs2.2 (l1 + 1) (by omega) (by omega)).2
        have hD : 0 < f (l1 + 1) - f l1 := by linarith
        rw [if_neg hi1, if_pos hi2]
        have : 0 ≤ (g2 - f l1) / (f (l1 + 1) - f l1) :=
          le_of_lt (div_pos (by linarith) hD)
        linarith
      · rw [if_neg hi1, if_neg hi2]

theorem widthRightWalk_ge (f : ℤ → ℚ) (iMax : ℤ) (height : ℚ) :
    ∀ fuel i, i ≤ widthRightWalk f iMax height fuel i := by
  intro fuel
  induction fuel with
  | zero => intro i; exact le_refl i
  | succ fuel ih =>
    intro i
    show i ≤ (if i < iMax ∧ height < f i then
      widthRightWalk f iMax height fuel (i + 1) else i)
    split
    · exact le_trans (by omega) (ih (i + 1))
    · exact le_refl i

theorem widthRightWalk_spec (f : ℤ → ℚ) (iMax : ℤ) (height : ℚ) :
    ∀ fuel i, (iMax - i).toNat ≤ fuel →
      ¬ (widthRightWalk f iMax height fuel i < iMax ∧
          height < f (widthRightWalk f iMax height fuel i)) ∧
      ∀ j : ℤ, i ≤ j → j < widthRightWalk f iMax height fuel i →
        j < iMax ∧ height < f j := by
  intro fuel
  induction fuel with
  | zero =>
    intro i hfuel
    have hr : widthRightWalk f iMax height 0 i = i := rfl
    rw [hr]
    have hi : iMax ≤ i := by omega
    constructor
    · intro hc
      omega
    · intro j hj hji
      omega
  | succ fuel ih =>
    intro i hfuel
    have hstep : widthRightWalk f iMax height (fuel + 1) i =
        if i < iMax ∧ height < f i then
          widthRightWalk f iMax height fuel (i + 1)
        else i := rfl
    by_cases hg : i < iMax ∧ height < f i
    · rw [hstep, if_pos hg]
      have hrec := ih (i + 1) (by omega)
      refine ⟨hrec.1, ?_⟩
      intro j hj hji
      rcases lt_or_eq_of_le hj with hlt | heq
      · exact hrec.2 j (by omega) hji
      · rw [← heq]; exact hg
    · rw [hstep, if_neg hg]
      exact ⟨hg, fun j hj hji => absurd (lt_of_le_of_lt hj hji)
        (lt_irrefl i)⟩

theorem widthRightWalk_mono (f : ℤ → ℚ) (iMax : ℤ) (g1 g2 : ℚ)
    (hg : g1 ≤ g2) :
    ∀ fuel i,
      widthRightWalk f iMax g2 fuel i ≤ widthRightWalk f iMax g1 fuel i := by
  intro fuel
  induction fuel with
  | zero => intro i; exact le_refl i
  | succ fuel ih =>
    intro i
    have h1 : widthRightWalk f iMax g1 (fuel + 1) i =
        if i < iMax ∧ g1 < f i then
          widthRightWalk f iMax g1 fuel (i + 1) else i := rfl
    have h2 : widthRightWalk f iMax g2 (fuel + 1) i =
        if i < iMax ∧ g2 < f i then
          widthRightWalk f iMax g2 fuel (i + 1) else i := rfl
    rw [h1, h2]
    by_cases hg2 : i < iMax ∧ g2 < f i
    · rw [if_pos hg2, if_pos ⟨hg2.1, lt_of_le_of_lt hg hg2.2⟩]
      exact ih (i + 1)
    · rw [if_neg hg2]
      split
      · exact le_trans (le_refl i) (le_trans (by omega)
          (widthRightWalk_ge f iMax g1 fuel (i + 1)))
      · exact le_refl i

theorem widthRip_mono_and_ge (f : ℤ → ℚ) (n : ℕ) (pos : ℤ) (g1 g2 : ℚ)
    (h12 : g1 ≤ g2) (hle : g2 ≤ f pos) :
    widthRip f n pos g2 ≤ widthRip f n pos g1 ∧
      (pos : ℚ) ≤ widthRip f n pos g2 := by
  set iMax : ℤ := (((3 * n) / 2 : ℕ) : ℤ) with hiMax
  have hfuel : (iMax - pos).toNat ≤ (iMax - pos + 1).toNat := by
    apply Int.toNat_le_toNat
    omega
  set r1 := widthRightWalk f iMax g1 (iMax - pos + 1).toNat pos with hr1
  set r2 := widthRightWalk f iMax g2 (iMax - pos + 1).toNat pos with hr2
  have hmono : r2 ≤ r1 :=
    widthRightWalk_mono f iMax g1 g2 h12 (iMax - pos + 1).toNat pos
  have hge1 : pos ≤ r1 := widthRightWalk_ge f iMax g1 _ pos
  have hge2 : pos ≤ r2 := widthRightWalk_ge f iMax g2 _ pos
  have hs1 := widthRightWalk_spec f iMax g1 (iMax - pos + 1).toNat pos hfuel
  have hs2 := widthRightWalk_spec f iMax g2 (iMax - pos + 1).toNat pos hfuel
  rw [← hr1] at hs1
  rw [← hr2] at hs2
  have hrip1 : widthRip f n pos g1 = (r1 : ℚ) -
      (if f r1 < g1 then (g1 - f r1) / (f (r1 - 1) - f r1) else 0) := rfl
  have hrip2 : widthRip f n pos g2 = (r2 : ℚ) -
      (if f r2 < g2 then (g2 - f r2) / (f (r2 - 1) - f r2) else 0) := rfl
  have hrip2ge : (pos : ℚ) ≤ widthRip f n pos g2 := by
    rw [hrip2]
    by_cases hi2 : f r2 < g2
    · have hr2pos : pos < r2 := by
        rcases lt_or_eq_of_le hge2 with h | h
        · exact h
        · rw [← h] at hi2
          exact absurd (lt_of_lt_of_le hi2 hle) (lt_irrefl _)
      have hj := (hs2.2 (r2 - 1) (by omega) (by omega)).2
      have hD : 0 < f (r2 - 1) - f r2 := by linarith
      have hfrac : (g2 - f r2) / (f (r2 - 1) - f r2) < 1 :=
        (div_lt_one hD).mpr (by linarith)
      rw [if_pos hi2]
      have hcast : (pos : ℚ) ≤ (r2 : ℚ) - 1 := by
        have : pos ≤ r2 - 1 := by omega
        exact_mod_cast by push_cast; linarith [this]
      linarith
    · rw [if_neg hi2]
      have : (pos : ℚ) ≤ (r2 : ℚ) := by exact_mod_cast hge2
      linarith
  refine ⟨?_, hrip2ge⟩
  rw [hrip1, hrip2]
  rcases lt_or_eq_of_le hmono with hlt | heq
  · -- `r2 < r1`
    have hub : (r2 : ℚ) -
        (if f r2 < g2 then (g2 - f r2) / (f (r2 - 1) - f r2) else 0) ≤
          (r2 : ℚ) := by
      by_cases hi2 : f r2 < g2
      · have hr2pos : pos < r2 := by
          rcases lt_or_eq_of_le hge2 with h | h
          · exact h
          · rw [← h] at hi2
            exact absurd (lt_of_lt_of_le hi2 hle) (lt_irrefl _)
        have hj := (hs2.2 (r2 - 1) (by omega) (by omega)).2
        have hD : 0 < f (r2 - 1) - f r2 := by linarith
        have hfrac : 0 ≤ (g2 - f r2) / (f (r2 - 1) - f r2) :=
          le_of_lt (div_pos (by linarith) hD)
        rw [if_pos hi2]
        linarith
      · rw [if_neg hi2]
        linarith
    have hlb : (r1 : ℚ) - 1 ≤ (r1 : ℚ) -
        (if f r1 < g1 then (g1 - f r1) / (f (r1 - 1) - f r1) else 0) := by
      by_cases hi1 : f r1 < g1
      · have hr1pos : pos < r1 := by omega
        have hj := (hs1.2 (r1 - 1) (by omega) (by omega)).2
        have hD : 0 < f (r1 - 1) - f r1 := by linarith
        have hfrac : (g1 - f r1) / (f (r1 - 1) - f r1) < 1 :=
          (div_lt_one hD).mpr (by linarith)
        rw [if_pos hi1]
        linarith
      · rw [if_neg hi1]
        linarith
    have hcast : (r2 : ℚ) ≤ (r1 : ℚ) - 1 := by
      have : r2 ≤ r1 - 1 := by omega
      exact_mod_cast by push_cast; linarith [this]
    linarith
  · -- equal stop indices
    rw [heq]
    by_cases hi1 : f r1 < g1
    · have hi2 : f r1 < g2 := lt_of_lt_of_le hi1 h12
      have hr1pos : pos < r1 := by
        rcases lt_or_eq_of_le hge1 with h | h
        · exact h
        · rw [← h] at hi2
          exact absurd (lt_of_lt_of_le hi2 hle) (lt_irrefl _)
      have hj2 : g2 < f (r1 - 1) := by
        have := (hs2.2 (r1 - 1) (by omega) (by omega)).2
        exact this
      have hD : 0 < f (r1 - 1) - f r1 := by linarith
      rw [if_pos hi1, if_pos hi2]
      have : (g1 - f r1) / (f (r1 - 1) - f r1) ≤
          (g2 - f r1) / (f (r1 - 1) - f r1) :=
        (div_le_div_right hD).mpr (by linarith)
      linarith
    · by_cases hi2 : f r1 < g2
      · have hr1pos : pos < r1 := by
          rcases lt_or_eq_of_le hge1 with h | h
          · exact h
          · rw [← h] at hi2
            exact absurd (lt_of_lt_of_le hi2 hle) (lt_irrefl _)
        have hj2 : g2 < f (r1 - 1) :=
          (hs2.2 (r1 - 1) (by omega) (by omega)).2
        have hD : 0 < f (r1 - 1) - f r1 := by linarith
        rw [if_neg hi1, if_pos hi2]
        have : 0 ≤ (g2 - f r1) / (f (r1 - 1) - f r1) :=
          le_of_lt (div_pos (by linarith) hD)
        linarith
      · rw [if_neg hi1, if_neg hi2]

/-- C9 (amended): peak width is non-negative, and it is monotonically
non-decreasing as the relative-height fraction `h` INCREASES toward 1
(equivalently, non-increasing as `h` decreases toward 0): a smaller `h`
raises the intersection height `value(p) - h·prominence` toward the peak
top and therefore narrows the measured width.  Holds for every memory
function, window size, position, non-negative prominence and fractions
`0 ≤ h2 ≤ h1`. -/
theorem peakwidth_nonneg_monotone (f : ℤ → ℚ) (n : ℕ) (pos : ℤ)
    (prom h1 h2 : ℚ) (hprom : 0 ≤ prom) (hh2 : 0 ≤ h2) (h21 : h2 ≤ h1) :
    0 ≤ widthAt f n pos prom h2 ∧
      widthAt f n pos prom h2 ≤ widthAt f n pos prom h1 := by
  have hg12 : f pos - prom * h1 ≤ f pos - prom * h2 := by
    have := mul_le_mul_of_nonneg_left h21 hprom
    linarith
  have hgle : f pos - prom * h2 ≤ f pos := by
    have := mul_nonneg hprom hh2
    linarith
  obtain ⟨hlmono, hlle⟩ := widthLip_mono_and_le f n pos
    (f pos - prom * h1) (f pos - prom * h2) hg12 hgle
  obtain ⟨hrmono, hrge⟩ := widthRip_mono_and_ge f n pos
    (f pos - prom * h1) (f pos - prom * h2) hg12 hgle
  constructor
  · show 0 ≤ widthRip f n pos (f pos - prom * h2) -
      widthLip f n pos (f pos - prom * h2)
    linarith
  · show widthRip f n pos (f pos - prom * h2) -
        widthLip f n pos (f pos - prom * h2) ≤
      widthRip f n pos (f pos - prom * h1) -
        widthLip f n pos (f pos - prom * h1)
    linarith

/-- Signal of the width counterexample and witness: an 8-sample triangle
peak at index 3. -/
def triangleSig : List ℚ := [0, 0, 0, 1, 0, 0, 0, 0]

/-- Witness for `peakwidth_nonneg_monotone` on `triangleSig` with
prominence 1 and fractions 1/2 ≤ 1. -/
theorem peakwidth_nonneg_monotone_witness :
    (0 : ℚ) ≤ 1 ∧ (0 : ℚ) ≤ 1 / 2 ∧ (1 / 2 : ℚ) ≤ 1 ∧
    (0 ≤ widthAt (mkMem triangleSig (fun _ => 0)) 8 3 1 (1 / 2) ∧
      widthAt (mkMem triangleSig (fun _ => 0)) 8 3 1 (1 / 2) ≤
        widthAt (mkMem triangleSig (fun _ => 0)) 8 3 1 1) :=
  ⟨by norm_num, by norm_num, by norm_num,
    peakwidth_nonneg_monotone (mkMem triangleSig (fun _ => 0)) 8 3 1 1
      (1 / 2) (by norm_num) (by norm_num) (by norm_num)⟩

/-- C9 (counterexample): the claim's monotonicity direction is inverted.
On `triangleSig` (peak at index 3, prominence 1) the width at fraction
`h = 1` is 2 samples and the width at `h = 1/2` is 1 sample: for
`h1 = 1 > h2 = 1/2` the width at the smaller fraction is strictly
SMALLER, not ≥, than the width at the larger fraction. -/
theorem width_monotonicity_counterexample :
    widthAt (mkMem triangleSig (fun _ => 0)) 8 3 1 1 = 2 ∧
    widthAt (mkMem triangleSig (fun _ => 0)) 8 3 1 (1 / 2) = 1 ∧
    ¬ (widthAt (mkMem triangleSig (fun _ => 0)) 8 3 1 (1 / 2) ≥
        widthAt (mkMem triangleSig (fun _ => 0)) 8 3 1 1) := by
  refine ⟨?_, ?_, ?_⟩ <;> with_unfolding_all decide

/-- Index trace of the right walk of `_peakwidth`: the indices at which
the loop guard `i < i_max and height < sub_image[i]` actually reads
`sub_image[i]` (the read happens whenever `i < i_max` holds). -/
def widthRightScanIdx (f : ℤ → ℚ) (iMax : ℤ) (height : ℚ) :
    ℕ → ℤ → List ℤ
  | 0, _ => []
  | fuel + 1, i =>
    if i < iMax then
      i :: (if height < f i then widthRightScanIdx f iMax height fuel (i + 1)
        else [])
    else []

/-- C5 (code bug): the right scan of `_peakwidth` reads past the end of
the signal row.  Concrete 4-sample pixel: signal `[5, 6, 7, 8]`, peak at
index 3 (a circular local maximum, and `_prominence` itself computes
prominence 2 for it — third conjunct), `target_height = 0.5`, so the
intersection height is `8 - 2·0.5 = 7`.  The walk starts at index 3 with
`i_max = ⌊1.5·4⌋ = 6` and the fuel `_peakwidth`'s embedding uses; since
`7 < sub_image[3] = 8` it advances to index 4 and reads `sub_image[4]`,
one past the row's end — whatever values lie beyond the row (any `ext`),
index 4 is among the scanned reads, and `4 < len` fails.  (`_prominence`
wraps this read with `% len`; `_peakwidth` does not.) -/
theorem peakwidth_right_scan_reads_past_end :
    (∀ ext : ℤ → ℚ,
      (4 : ℤ) ∈ widthRightScanIdx (mkMem [5, 6, 7, 8] ext) 6 7 4 3) ∧
    ¬ ((4 : ℤ) < (([5, 6, 7, 8] : List ℚ).length : ℤ)) ∧
    prominenceAt [5, 6, 7, 8] [0, 0, 0, 1] 3 = 2 := by
  refine ⟨?_, by with_unfolding_all decide, by with_unfolding_all decide⟩
  intro ext
  have h1 : widthRightScanIdx (mkMem [5, 6, 7, 8] ext) 6 7 4 3 =
      3 :: widthRightScanIdx (mkMem [5, 6, 7, 8] ext) 6 7 3 4 := by
    with_unfolding_all rfl
  have h2 : widthRightScanIdx (mkMem [5, 6, 7, 8] ext) 6 7 3 4 =
      4 :: (if (7 : ℚ) < mkMem [5, 6, 7, 8] ext 4 then
        widthRightScanIdx (mkMem [5, 6, 7, 8] ext) 6 7 2 5 else []) := by
    with_unfolding_all rfl
  rw [h1, h2]
  exact List.mem_cons_of_mem _ (List.mem_cons_self _ _)

/-- Inner interpolation loop of the GPU `_centroid` kernel (`_toolbox.py`
lines 230-235): 101 interpolation samples (`interp = 0 … NUMBER_OF_SAMPLES`,
`step = interp / 100`) between two adjacent signal values, adding
`(x + step) * func_val` and `func_val` to the running sums
(`centroid_sum_top`, `centroid_sum_bottom`) for every interpolated value
strictly above the threshold.  `fuel` counts the remaining samples,
`k` is the current `interp`. -/
def centroidInnerGo (img nxt thr : ℚ) (x : ℤ) :
    ℕ → ℕ → ℚ → ℚ → ℚ × ℚ
  | 0, _, top, bot => (top, bot)
  | fuel + 1, k, top, bot =>
    let step : ℚ := (k : ℚ) / 100
    let funcVal := img + (nxt - img) * step
    if thr < funcVal then
      centroidInnerGo img nxt thr x fuel (k + 1)
        (top + ((x : ℚ) + step) * funcVal) (bot + funcVal)
    else centroidInnerGo img nxt thr x fuel (k + 1) top bot

/-- Outer base-window loop of `_centroid` (lines 227-235): `x` runs over
`range(-left_base, right_base)`, threading the two running sums; signal
reads wrap with an explicit `% len` in the source. -/
def centroidOuterGo (sig : List ℚ) (thr : ℚ) (pos : ℕ) :
    ℕ → ℤ → ℚ → ℚ → ℚ × ℚ
  | 0, _, top, bot => (top, bot)
  | m + 1, x, top, bot =>
    let p := centroidInnerGo (sigAt sig ((pos : ℤ) + x))
        (sigAt sig ((pos : ℤ) + x + 1)) thr x 101 0 top bot
    centroidOuterGo sig thr pos m (x + 1) p.1 p.2

/-- The two weighted sums (`centroid_sum_top`, `centroid_sum_bottom`) of
`_centroid` over the base window `[-left_base, right_base)`. -/
def centroidSums (sig : List ℚ) (thr : ℚ) (pos : ℕ) (lb rb : ℤ) :
    ℚ × ℚ :=
  centroidOuterGo sig thr pos (rb + lb).toNat (-lb) 0 0

/-- The final clamp of `_centroid` (lines 238-241): two sequential `if`s
bounding the quotient to `[-1, 1]`. -/
def clampUnit (c : ℚ) : ℚ :=
  let c1 := if c > 1 then 1 else c
  if c1 < -1 then -1 else c1

/-- Embedding of the GPU `_centroid` kernel at one position: for a marked
peak the threshold is `sub_peaks[pos] * TARGET_PEAK_HEIGHT` — the PEAK
MASK value (1) times 0.94, not the signal value — then the clamped
quotient of the two sums; non-peak positions get 0.  In the source the
quotient is an unguarded float division: when no interpolated sample
passes the threshold it is 0/0 = NaN (which the clamp does not remove);
the rational embedding makes 0/0 = 0, so theorems about the quotient
carry the hypothesis that the denominator is nonzero. -/
def centroidAt (sig : List ℚ) (mask lb rb : List ℤ) (pos : ℕ) : ℚ :=
  if mask.getD pos 0 = 1 then
    clampUnit
      ((centroidSums sig (((mask.getD pos 0 : ℤ) : ℚ) * (94 / 100)) pos
          (lb.getD pos 0) (rb.getD pos 0)).1 /
        (centroidSums sig (((mask.getD pos 0 : ℤ) : ℚ) * (94 / 100)) pos
          (lb.getD pos 0) (rb.getD pos 0)).2)
  else 0

/-- Modelled from the spec: the centroid as claim C6 states it, with the
accumulation threshold `target_fraction (0.94) times the peak's SIGNAL
value`. -/
def centroidClaimAt (sig : List ℚ) (mask lb rb : List ℤ) (pos : ℕ) : ℚ :=
  if mask.getD pos 0 = 1 then
    clampUnit
      ((centroidSums sig ((94 / 100) * sigAt sig pos) pos
          (lb.getD pos 0) (rb.getD pos 0)).1 /
        (centroidSums sig ((94 / 100) * sigAt sig pos) pos
          (lb.getD pos 0) (rb.getD pos 0)).2)
  else 0

/-- The centroid with the amended claim's threshold: the constant
`0.94` (the mask value 1 times `TARGET_PEAK_HEIGHT`), independent of the
signal. -/
def centroidConstAt (sig : List ℚ) (lb rb : List ℤ) (pos : ℕ) : ℚ :=
  clampUnit
    ((centroidSums sig (94 / 100) pos (lb.getD pos 0)
        (rb.getD pos 0)).1 /
      (centroidSums sig (94 / 100) pos (lb.getD pos 0)
        (rb.getD pos 0)).2)

theorem clampUnit_bounds (c : ℚ) : -1 ≤ clampUnit c ∧ clampUnit c ≤ 1 := by
  unfold clampUnit
  by_cases h1 : c > 1
  · rw [if_pos h1]
    norm_num
  · rw [if_neg h1]
    by_cases h2 : c < -1
    · rw [if_pos h2]
      norm_num
    · rw [if_neg h2]
      constructor
      · linarith [not_lt.mp h2]
      · linarith [not_lt.mp h1]

theorem centroidInnerGo_succ (img nxt thr : ℚ) (x : ℤ) (m k : ℕ)
    (top bot : ℚ) :
    centroidInnerGo img nxt thr x (m + 1) k top bot =
      if thr < img + (nxt - img) * ((k : ℚ) / 100) then
        centroidInnerGo img nxt thr x m (k + 1)
          (top + ((x : ℚ) + (k : ℚ) / 100) *
            (img + (nxt - img) * ((k : ℚ) / 100)))
          (bot + (img + (nxt - img) * ((k : ℚ) / 100)))
      else centroidInnerGo img nxt thr x m (k + 1) top bot := rfl

theorem centroidInnerGo_zero (img nxt thr : ℚ) (x : ℤ) (k : ℕ)
    (top bot : ℚ) :
    centroidInnerGo img nxt thr x 0 k top bot = (top, bot) := rfl

set_option maxHeartbeats 2000000 in
theorem centroidWin_code_1 :
    centroidInnerGo 2 10 (94 / 100) (-1) 101 0 0 0 =
      ((-5858 / 25), 606) := by
  rw [centroidInnerGo_succ, if_pos (by norm_num)]
  rw [centroidInnerGo_succ, if_pos (by norm_num)]
  rw [centroidInnerGo_succ, if_pos (by norm_num)]
  rw [centroidInnerGo_succ, if_pos (by norm_num)]
  rw [centroidInnerGo_succ, if_pos (by norm_num)]
  rw [centroidInnerGo_succ, if_pos (by norm_num)]
  rw [centroidInnerGo_succ, if_pos (by norm_num)]
  rw [centroidInnerGo_succ, if_pos (by norm_num)]
  rw [centroidInnerGo_succ, if_pos (by norm_num)]
  rw [centroidInnerGo_succ, if_pos (by norm_num)]
  rw [centroidInnerGo_succ, if_pos (by norm_num)]
  rw [centroidInnerGo_succ, if_pos (by norm_num)]
  rw [centroidInnerGo_succ, if_pos (by norm_num)]
  rw [centroidInnerGo_succ, if_pos (by norm_num)]
  rw [centroidInnerGo_succ, if_pos (by norm_num)]
  rw [centroidInnerGo_succ, if_pos (by norm_num)]
  rw [centroidInnerGo_succ, if_pos (by norm_num)]
  rw [centroidInnerGo_succ, if_pos (by norm_num)]
  rw [centroidInnerGo_succ, if_pos (by norm_num)]
  rw [centroidInnerGo_succ, if_pos (by norm_num)]
  rw [centroidInnerGo_succ, if_pos (by norm_num)]
  rw [centroidInnerGo_succ, if_pos (by norm_num)]
  rw [centroidInnerGo_succ, if_pos (by norm_num)]
  rw [centroidInnerGo_succ, if_pos (by norm_num)]
  rw [centroidInnerGo_succ, if_pos (by norm_num)]
  rw [centroidInnerGo_succ, if_pos (by norm_num)]
  rw [centroidInnerGo_succ, if_pos (by norm_num)]
  rw [centroidInnerGo_succ, if_pos (by norm_num)]
  rw [centroidInnerGo_succ, if_pos (by norm_num)]
  rw [centroidInnerGo_succ, if_pos (by norm_num)]
  rw [centroidInnerGo_succ, if_pos (by norm_num)]
  rw [centroidInnerGo_succ, if_pos (by norm_num)]
  rw [centroidInnerGo_succ, if_pos (by norm_num)]
  rw [centroidInnerGo_succ, if_pos (by norm_num)]
  rw [centroidInnerGo_succ, if_pos (by norm_num)]
  rw [centroidInnerGo_succ, if_pos (by norm_num)]
  rw [centroidInnerGo_succ, if_pos (by norm_num)]
  rw [centroidInnerGo_succ, if_pos (by norm_num)]
  rw [centroidInnerGo_succ, if_pos (by norm_num)]
  rw [centroidInnerGo_succ, if_pos (by norm_num)]
  rw [centroidInnerGo_succ, if_pos (by norm_num)]
  rw [centroidInnerGo_succ, if_pos (by norm_num)]
  rw [centroidInnerGo_succ, if_pos (by norm_num)]
  rw [centroidInnerGo_succ, if_pos (by norm_num)]
  rw [centroidInnerGo_succ, if_pos (by norm_num)]
  rw [centroidInnerGo_succ, if_pos (by norm_num)]
  rw [centroidInnerGo_succ, if_pos (by norm_num)]
  rw [centroidInnerGo_succ, if_pos (by norm_num)]
  rw [centroidInnerGo_succ, if_pos (by norm_num)]
  rw [centroidInnerGo_succ, if_pos (by norm_num)]
  rw [centroidInnerGo_succ, if_pos (by norm_num)]
  rw [centroidInnerGo_succ, if_pos (by norm_num)]
  rw [centroidInnerGo_succ, if_pos (by norm_num)]
  rw [centroidInnerGo_succ, if_pos (by norm_num)]
  rw [centroidInnerGo_succ, if_pos (by norm_num)]
  rw [centroidInnerGo_succ, if_pos (by norm_num)]
  rw [centroidInnerGo_succ, if_pos (by norm_num)]
  rw [centroidInnerGo_succ, if_pos (by norm_num)]
  rw [centroidInnerGo_succ, if_pos (by norm_num)]
  rw [centroidInnerGo_succ, if_pos (by norm_num)]
  rw [centroidInnerGo_succ, if_pos (by norm_num)]
  rw [centroidInnerGo_succ, if_pos (by norm_num)]
  rw [centroidInnerGo_succ, if_pos (by norm_num)]
  rw [centroidInnerGo_succ, if_pos (by norm_num)]
  rw [centroidInnerGo_succ, if_pos (by norm_num)]
  rw [centroidInnerGo_succ, if_pos (by norm_num)]
  rw [centroidInnerGo_succ, if_pos (by norm_num)]
  rw [centroidInnerGo_succ, if_pos (by norm_num)]
  rw [centroidInnerGo_succ, if_pos (by norm_num)]
  rw [centroidInnerGo_succ, if_pos (by norm_num)]
  rw [centroidInnerGo_succ, if_pos (by norm_num)]
  rw [centroidInnerGo_succ, if_pos (by norm_num)]
  rw [centroidInnerGo_succ, if_pos (by norm_num)]
  rw [centroidInnerGo_succ, if_pos (by norm_num)]
  rw [centroidInnerGo_succ, if_pos (by norm_num)]
  rw [centroidInnerGo_succ, if_pos (by norm_num)]
  rw [centroidInnerGo_succ, if_pos (by norm_num)]
  rw [centroidInnerGo_succ, if_pos (by norm_num)]
  rw [centroidInnerGo_succ, if_pos (by norm_num)]
  rw [centroidInnerGo_succ, if_pos (by norm_num)]
  rw [centroidInnerGo_succ, if_pos (by norm_num)]
  rw [centroidInnerGo_succ, if_pos (by norm_num)]
  rw [centroidInnerGo_succ, if_pos (by norm_num)]
  rw [centroidInnerGo_succ, if_pos (by norm_num)]
  rw [centroidInnerGo_succ, if_pos (by norm_num)]
  rw [centroidInnerGo_succ, if_pos (by norm_num)]
  rw [centroidInnerGo_succ, if_pos (by norm_num)]
  rw [centroidInnerGo_succ, if_pos (by norm_num)]
  rw [centroidInnerGo_succ, if_pos (by norm_num)]
  rw [centroidInnerGo_succ, if_pos (by norm_num)]
  rw [centroidInnerGo_succ, if_pos (by norm_num)]
  rw [centroidInnerGo_succ, if_pos (by norm_num)]
  rw [centroidInnerGo_succ, if_pos (by norm_num)]
  rw [centroidInnerGo_succ, if_pos (by norm_num)]
  rw [centroidInnerGo_succ, if_pos (by norm_num)]
  rw [centroidInnerGo_succ, if_pos (by norm_num)]
  rw [centroidInnerGo_succ, if_pos (by norm_num)]
  rw [centroidInnerGo_succ, if_pos (by norm_num)]
  rw [centroidInnerGo_succ, if_pos (by norm_num)]
  rw [centroidInnerGo_succ, if_pos (by norm_num)]
  rw [centroidInnerGo_succ, if_pos (by norm_num)]
  rw [centroidInnerGo_zero]
  rw [Prod.mk.injEq]
  refine ⟨by norm_num, by norm_num⟩

set_option maxHeartbeats 2000000 in
theorem centroidWin_code_2 :
    centroidInnerGo 10 5 (94 / 100) (0) 101 0 (-5858 / 25) 606 =
      ((20301 / 200), (2727 / 2)) := by
  rw [centroidInnerGo_succ, if_pos (by norm_num)]
  rw [centroidInnerGo_succ, if_pos (by norm_num)]
  rw [centroidInnerGo_succ, if_pos (by norm_num)]
  rw [centroidInnerGo_succ, if_pos (by norm_num)]
  rw [centroidInnerGo_succ, if_pos (by norm_num)]
  rw [centroidInnerGo_succ, if_pos (by norm_num)]
  rw [centroidInnerGo_succ, if_pos (by norm_num)]
  rw [centroidInnerGo_succ, if_pos (by norm_num)]
  rw [centroidInnerGo_succ, if_pos (by norm_num)]
  rw [centroidInnerGo_succ, if_pos (by norm_num)]
  rw [centroidInnerGo_succ, if_pos (by norm_num)]
  rw [centroidInnerGo_succ, if_pos (by norm_num)]
  rw [centroidInnerGo_succ, if_pos (by norm_num)]
  rw [centroidInnerGo_succ, if_pos (by norm_num)]
  rw [centroidInnerGo_succ, if_pos (by norm_num)]
  rw [centroidInnerGo_succ, if_pos (by norm_num)]
  rw [centroidInnerGo_succ, if_pos (by norm_num)]
  rw [centroidInnerGo_succ, if_pos (by norm_num)]
  rw [centroidInnerGo_succ, if_pos (by norm_num)]
  rw [centroidInnerGo_succ, if_pos (by norm_num)]
  rw [centroidInnerGo_succ, if_pos (by norm_num)]
  rw [centroidInnerGo_succ, if_pos (by norm_num)]
  rw [centroidInnerGo_succ, if_pos (by norm_num)]
  rw [centroidInnerGo_succ, if_pos (by norm_num)]
  rw [centroidInnerGo_succ, if_pos (by norm_num)]
  rw [centroidInnerGo_succ, if_pos (by norm_num)]
  rw [centroidInnerGo_succ, if_pos (by norm_num)]
  rw [centroidInnerGo_succ, if_pos (by norm_num)]
  rw [centroidInnerGo_succ, if_pos (by norm_num)]
  rw [centroidInnerGo_succ, if_pos (by norm_num)]
  rw [centroidInnerGo_succ, if_pos (by norm_num)]
  rw [centroidInnerGo_succ, if_pos (by norm_num)]
  rw [centroidInnerGo_succ, if_pos (by norm_num)]
  rw [centroidInnerGo_succ, if_pos (by norm_num)]
  rw [centroidInnerGo_succ, if_pos (by norm_num)]
  rw [centroidInnerGo_succ, if_pos (by norm_num)]
  rw [centroidInnerGo_succ, if_pos (by norm_num)]
  rw [centroidInnerGo_succ, if_pos (by norm_num)]
  rw [centroidInnerGo_succ, if_pos (by norm_num)]
  rw [centroidInnerGo_succ, if_pos (by norm_num)]
  rw [centroidInnerGo_succ, if_pos (by norm_num)]
  rw [centroidInnerGo_succ, if_pos (by norm_num)]
  rw [centroidInnerGo_succ, if_pos (by norm_num)]
  rw [centroidInnerGo_succ, if_pos (by norm_num)]
  rw [centroidInnerGo_succ, if_pos (by norm_num)]
  rw [centroidInnerGo_succ, if_pos (by norm_num)]
  rw [centroidInnerGo_succ, if_pos (by norm_num)]
  rw [centroidInnerGo_succ, if_pos (by norm_num)]
  rw [centroidInnerGo_succ, if_pos (by norm_num)]
  rw [centroidInnerGo_succ, if_pos (by norm_num)]
  rw [centroidInnerGo_succ, if_pos (by norm_num)]
  rw [centroidInnerGo_succ, if_pos (by norm_num)]
  rw [centroidInnerGo_succ, if_pos (by norm_num)]
  rw [centroidInnerGo_succ, if_pos (by norm_num)]
  rw [centroidInnerGo_succ, if_pos (by norm_num)]
  rw [centroidInnerGo_succ, if_pos (by norm_num)]
  rw [centroidInnerGo_succ, if_pos (by norm_num)]
  rw [centroidInnerGo_succ, if_pos (by norm_num)]
  rw [centroidInnerGo_succ, if_pos (by norm_num)]
  rw [centroidInnerGo_succ, if_pos (by norm_num)]
  rw [centroidInnerGo_succ, if_pos (by norm_num)]
  rw [centroidInnerGo_succ, if_pos (by norm_num)]
  rw [centroidInnerGo_succ, if_pos (by norm_num)]
  rw [centroidInnerGo_succ, if_pos (by norm_num)]
  rw [centroidInnerGo_succ, if_pos (by norm_num)]
  rw [centroidInnerGo_succ, if_pos (by norm_num)]
  rw [centroidInnerGo_succ, if_pos (by norm_num)]
  rw [centroidInnerGo_succ, if_pos (by norm_num)]
  rw [centroidInnerGo_succ, if_pos (by norm_num)]
  rw [centroidInnerGo_succ, if_pos (by norm_num)]
  rw [centroidInnerGo_succ, if_pos (by norm_num)]
  rw [centroidInnerGo_succ, if_pos (by norm_num)]
  rw [centroidInnerGo_succ, if_pos (by norm_num)]
  rw [centroidInnerGo_succ, if_pos (by norm_num)]
  rw [centroidInnerGo_succ, if_pos (by norm_num)]
  rw [centroidInnerGo_succ, if_pos (by norm_num)]
  rw [centroidInnerGo_succ, if_pos (by norm_num)]
  rw [centroidInnerGo_succ, if_pos (by norm_num)]
  rw [centroidInnerGo_succ, if_pos (by norm_num)]
  rw [centroidInnerGo_succ, if_pos (by norm_num)]
  rw [centroidInnerGo_succ, if_pos (by norm_num)]
  rw [centroidInnerGo_succ, if_pos (by norm_num)]
  rw [centroidInnerGo_succ, if_pos (by norm_num)]
  rw [centroidInnerGo_succ, if_pos (by norm_num)]
  rw [centroidInnerGo_succ, if_pos (by norm_num)]
  rw [centroidInnerGo_succ, if_pos (by norm_num)]
  rw [centroidInnerGo_succ, if_pos (by norm_num)]
  rw [centroidInnerGo_succ, if_pos (by norm_num)]
  rw [centroidInnerGo_succ, if_pos (by norm_num)]
  rw [centroidInnerGo_succ, if_pos (by norm_num)]
  rw [centroidInnerGo_succ, if_pos (by norm_num)]
  rw [centroidInnerGo_succ, if_pos (by norm_num)]
  rw [centroidInnerGo_succ, if_pos (by norm_num)]
  rw [centroidInnerGo_succ, if_pos (by norm_num)]
  rw [centroidInnerGo_succ, if_pos (by norm_num)]
  rw [centroidInnerGo_succ, if_pos (by norm_num)]
  rw [centroidInnerGo_succ, if_pos (by norm_num)]
  rw [centroidInnerGo_succ, if_pos (by norm_num)]
  rw [centroidInnerGo_succ, if_pos (by norm_num)]
  rw [centroidInnerGo_succ, if_pos (by norm_num)]
  rw [centroidInnerGo_succ, if_pos (by norm_num)]
  rw [centroidInnerGo_zero]
  rw [Prod.mk.injEq]
  refine ⟨by norm_num, by norm_num⟩

set_option maxHeartbeats 2000000 in
theorem centroidWin_claim_1 :
    centroidInnerGo 2 10 (47 / 5) (-1) 101 0 0 0 =
      ((-336 / 125), (1944 / 25)) := by
  rw [centroidInnerGo_succ, if_neg (by norm_num)]
  rw [centroidInnerGo_succ, if_neg (by norm_num)]
  rw [centroidInnerGo_succ, if_neg (by norm_num)]
  rw [centroidInnerGo_succ, if_neg (by norm_num)]
  rw [centroidInnerGo_succ, if_neg (by norm_num)]
  rw [centroidInnerGo_succ, if_neg (by norm_num)]
  rw [centroidInnerGo_succ, if_neg (by norm_num)]
  rw [centroidInnerGo_succ, if_neg (by norm_num)]
  rw [centroidInnerGo_succ, if_neg (by norm_num)]
  rw [centroidInnerGo_succ, if_neg (by norm_num)]
  rw [centroidInnerGo_succ, if_neg (by norm_num)]
  rw [centroidInnerGo_succ, if_neg (by norm_num)]
  rw [centroidInnerGo_succ, if_neg (by norm_num)]
  rw [centroidInnerGo_succ, if_neg (by norm_num)]
  rw [centroidInnerGo_succ, if_neg (by norm_num)]
  rw [centroidInnerGo_succ, if_neg (by norm_num)]
  rw [centroidInnerGo_succ, if_neg (by norm_num)]
  rw [centroidInnerGo_succ, if_neg (by norm_num)]
  rw [centroidInnerGo_succ, if_neg (by norm_num)]
  rw [centroidInnerGo_succ, if_neg (by norm_num)]
  rw [centroidInnerGo_succ, if_neg (by norm_num)]
  rw [centroidInnerGo_succ, if_neg (by norm_num)]
  rw [centroidInnerGo_succ, if_neg (by norm_num)]
  rw [centroidInnerGo_succ, if_neg (by norm_num)]
  rw [centroidInnerGo_succ, if_neg (by norm_num)]
  rw [centroidInnerGo_succ, if_neg (by norm_num)]
  rw [centroidInnerGo_succ, if_neg (by norm_num)]
  rw [centroidInnerGo_succ, if_neg (by norm_num)]
  rw [centroidInnerGo_succ, if_neg (by norm_num)]
  rw [centroidInnerGo_succ, if_neg (by norm_num)]
  rw [centroidInnerGo_succ, if_neg (by norm_num)]
  rw [centroidInnerGo_succ, if_neg (by norm_num)]
  rw [centroidInnerGo_succ, if_neg (by norm_num)]
  rw [centroidInnerGo_succ, if_neg (by norm_num)]
  rw [centroidInnerGo_succ, if_neg (by norm_num)]
  rw [centroidInnerGo_succ, if_neg (by norm_num)]
  rw [centroidInnerGo_succ, if_neg (by norm_num)]
  rw [centroidInnerGo_succ, if_neg (by norm_num)]
  rw [centroidInnerGo_succ, if_neg (by norm_num)]
  rw [centroidInnerGo_succ, if_neg (by norm_num)]
  rw [centroidInnerGo_succ, if_neg (by norm_num)]
  rw [centroidInnerGo_succ, if_neg (by norm_num)]
  rw [centroidInnerGo_succ, if_neg (by norm_num)]
  rw [centroidInnerGo_succ, if_neg (by norm_num)]
  rw [centroidInnerGo_succ, if_neg (by norm_num)]
  rw [centroidInnerGo_succ, if_neg (by norm_num)]
  rw [centroidInnerGo_succ, if_neg (by norm_num)]
  rw [centroidInnerGo_succ, if_neg (by norm_num)]
  rw [centroidInnerGo_succ, if_neg (by norm_num)]
  rw [centroidInnerGo_succ, if_neg (by norm_num)]
  rw [centroidInnerGo_succ, if_neg (by norm_num)]
  rw [centroidInnerGo_succ, if_neg (by norm_num)]
  rw [centroidInnerGo_succ, if_neg (by norm_num)]
  rw [centroidInnerGo_succ, if_neg (by norm_num)]
  rw [centroidInnerGo_succ, if_neg (by norm_num)]
  rw [centroidInnerGo_succ, if_neg (by norm_num)]
  rw [centroidInnerGo_succ, if_neg (by norm_num)]
  rw [centroidInnerGo_succ, if_neg (by norm_num)]
  rw [centroidInnerGo_succ, if_neg (by norm_num)]
  rw [centroidInnerGo_succ, if_neg (by norm_num)]
  rw [centroidInnerGo_succ, if_neg (by norm_num)]
  rw [centroidInnerGo_succ, if_neg (by norm_num)]
  rw [centroidInnerGo_succ, if_neg (by norm_num)]
  rw [centroidInnerGo_succ, if_neg (by norm_num)]
  rw [centroidInnerGo_succ, if_neg (by norm_num)]
  rw [centroidInnerGo_succ, if_neg (by norm_num)]
  rw [centroidInnerGo_succ, if_neg (by norm_num)]
  rw [centroidInnerGo_succ, if_neg (by norm_num)]
  rw [centroidInnerGo_succ, if_neg (by norm_num)]
  rw [centroidInnerGo_succ, if_neg (by norm_num)]
  rw [centroidInnerGo_succ, if_neg (by norm_num)]
  rw [centroidInnerGo_succ, if_neg (by norm_num)]
  rw [centroidInnerGo_succ, if_neg (by norm_num)]
  rw [centroidInnerGo_succ, if_neg (by norm_num)]
  rw [centroidInnerGo_succ, if_neg (by norm_num)]
  rw [centroidInnerGo_succ, if_neg (by norm_num)]
  rw [centroidInnerGo_succ, if_neg (by norm_num)]
  rw [centroidInnerGo_succ, if_neg (by norm_num)]
  rw [centroidInnerGo_succ, if_neg (by norm_num)]
  rw [centroidInnerGo_succ, if_neg (by norm_num)]
  rw [centroidInnerGo_succ, if_neg (by norm_num)]
  rw [centroidInnerGo_succ, if_neg (by norm_num)]
  rw [centroidInnerGo_succ, if_neg (by norm_num)]
  rw [centroidInnerGo_succ, if_neg (by norm_num)]
  rw [centroidInnerGo_succ, if_neg (by norm_num)]
  rw [centroidInnerGo_succ, if_neg (by norm_num)]
  rw [centroidInnerGo_succ, if_neg (by norm_num)]
  rw [centroidInnerGo_succ, if_neg (by norm_num)]
  rw [centroidInnerGo_succ, if_neg (by norm_num)]
  rw [centroidInnerGo_succ, if_neg (by norm_num)]
  rw [centroidInnerGo_succ, if_neg (by norm_num)]
  rw [centroidInnerGo_succ, if_neg (by norm_num)]
  rw [centroidInnerGo_succ, if_neg (by norm_num)]
  rw [centroidInnerGo_succ, if_pos (by norm_num)]
  rw [centroidInnerGo_succ, if_pos (by norm_num)]
  rw [centroidInnerGo_succ, if_pos (by norm_num)]
  rw [centroidInnerGo_succ, if_pos (by norm_num)]
  rw [centroidInnerGo_succ, if_pos (by norm_num)]
  rw [centroidInnerGo_succ, if_pos (by norm_num)]
  rw [centroidInnerGo_succ, if_pos (by norm_num)]
  rw [centroidInnerGo_succ, if_pos (by norm_num)]
  rw [centroidInnerGo_zero]
  rw [Prod.mk.injEq]
  refine ⟨by norm_num, by norm_num⟩

set_option maxHeartbeats 2000000 in
theorem centroidWin_claim_2 :
    centroidInnerGo 10 5 (47 / 5) (0) 101 0 (-336 / 125) (1944 / 25) =
      ((3659 / 1000), (9723 / 50)) := by
  rw [centroidInnerGo_succ, if_pos (by norm_num)]
  rw [centroidInnerGo_succ, if_pos (by norm_num)]
  rw [centroidInnerGo_succ, if_pos (by norm_num)]
  rw [centroidInnerGo_succ, if_pos (by norm_num)]
  rw [centroidInnerGo_succ, if_pos (by norm_num)]
  rw [centroidInnerGo_succ, if_pos (by norm_num)]
  rw [centroidInnerGo_succ, if_pos (by norm_num)]
  rw [centroidInnerGo_succ, if_pos (by norm_num)]
  rw [centroidInnerGo_succ, if_pos (by norm_num)]
  rw [centroidInnerGo_succ, if_pos (by norm_num)]
  rw [centroidInnerGo_succ, if_pos (by norm_num)]
  rw [centroidInnerGo_succ, if_pos (by norm_num)]
  rw [centroidInnerGo_succ, if_neg (by norm_num)]
  rw [centroidInnerGo_succ, if_neg (by norm_num)]
  rw [centroidInnerGo_succ, if_neg (by norm_num)]
  rw [centroidInnerGo_succ, if_neg (by norm_num)]
  rw [centroidInnerGo_succ, if_neg (by norm_num)]
  rw [centroidInnerGo_succ, if_neg (by norm_num)]
  rw [centroidInnerGo_succ, if_neg (by norm_num)]
  rw [centroidInnerGo_succ, if_neg (by norm_num)]
  rw [centroidInnerGo_succ, if_neg (by norm_num)]
  rw [centroidInnerGo_succ, if_neg (by norm_num)]
  rw [centroidInnerGo_succ, if_neg (by norm_num)]
  rw [centroidInnerGo_succ, if_neg (by norm_num)]
  rw [centroidInnerGo_succ, if_neg (by norm_num)]
  rw [centroidInnerGo_succ, if_neg (by norm_num)]
  rw [centroidInnerGo_succ, if_neg (by norm_num)]
  rw [centroidInnerGo_succ, if_neg (by norm_num)]
  rw [centroidInnerGo_succ, if_neg (by norm_num)]
  rw [centroidInnerGo_succ, if_neg (by norm_num)]
  rw [centroidInnerGo_succ, if_neg (by norm_num)]
  rw [centroidInnerGo_succ, if_neg (by norm_num)]
  rw [centroidInnerGo_succ, if_neg (by norm_num)]
  rw [centroidInnerGo_succ, if_neg (by norm_num)]
  rw [centroidInnerGo_succ, if_neg (by norm_num)]
  rw [centroidInnerGo_succ, if_neg (by norm_num)]
  rw [centroidInnerGo_succ, if_neg (by norm_num)]
  rw [centroidInnerGo_succ, if_neg (by norm_num)]
  rw [centroidInnerGo_succ, if_neg (by norm_num)]
  rw [centroidInnerGo_succ, if_neg (by norm_num)]
  rw [centroidInnerGo_succ, if_neg (by norm_num)]
  rw [centroidInnerGo_succ, if_neg (by norm_num)]
  rw [centroidInnerGo_succ, if_neg (by norm_num)]
  rw [centroidInnerGo_succ, if_neg (by norm_num)]
  rw [centroidInnerGo_succ, if_neg (by norm_num)]
  rw [centroidInnerGo_succ, if_neg (by norm_num)]
  rw [centroidInnerGo_succ, if_neg (by norm_num)]
  rw [centroidInnerGo_succ, if_neg (by norm_num)]
  rw [centroidInnerGo_succ, if_neg (by norm_num)]
  rw [centroidInnerGo_succ, if_neg (by norm_num)]
  rw [centroidInnerGo_succ, if_neg (by norm_num)]
  rw [centroidInnerGo_succ, if_neg (by norm_num)]
  rw [centroidInnerGo_succ, if_neg (by norm_num)]
  rw [centroidInnerGo_succ, if_neg (by norm_num)]
  rw [centroidInnerGo_succ, if_neg (by norm_num)]
  rw [centroidInnerGo_succ, if_neg (by norm_num)]
  rw [centroidInnerGo_succ, if_neg (by norm_num)]
  rw [centroidInnerGo_succ, if_neg (by norm_num)]
  rw [centroidInnerGo_succ, if_neg (by norm_num)]
  rw [centroidInnerGo_succ, if_neg (by norm_num)]
  rw [centroidInnerGo_succ, if_neg (by norm_num)]
  rw [centroidInnerGo_succ, if_neg (by norm_num)]
  rw [centroidInnerGo_succ, if_neg (by norm_num)]
  rw [centroidInnerGo_succ, if_neg (by norm_num)]
  rw [centroidInnerGo_succ, if_neg (by norm_num)]
  rw [centroidInnerGo_succ, if_neg (by norm_num)]
  rw [centroidInnerGo_succ, if_neg (by norm_num)]
  rw [centroidInnerGo_succ, if_neg (by norm_num)]
  rw [centroidInnerGo_succ, if_neg (by norm_num)]
  rw [centroidInnerGo_succ, if_neg (by norm_num)]
  rw [centroidInnerGo_succ, if_neg (by norm_num)]
  rw [centroidInnerGo_succ, if_neg (by norm_num)]
  rw [centroidInnerGo_succ, if_neg (by norm_num)]
  rw [centroidInnerGo_succ, if_neg (by norm_num)]
  rw [centroidInnerGo_succ, if_neg (by norm_num)]
  rw [centroidInnerGo_succ, if_neg (by norm_num)]
  rw [centroidInnerGo_succ, if_neg (by norm_num)]
  rw [centroidInnerGo_succ, if_neg (by norm_num)]
  rw [centroidInnerGo_succ, if_neg (by norm_num)]
  rw [centroidInnerGo_succ, if_neg (by norm_num)]
  rw [centroidInnerGo_succ, if_neg (by norm_num)]
  rw [centroidInnerGo_succ, if_neg (by norm_num)]
  rw [centroidInnerGo_succ, if_neg (by norm_num)]
  rw [centroidInnerGo_succ, if_neg (by norm_num)]
  rw [centroidInnerGo_succ, if_neg (by norm_num)]
  rw [centroidInnerGo_succ, if_neg (by norm_num)]
  rw [centroidInnerGo_succ, if_neg (by norm_num)]
  rw [centroidInnerGo_succ, if_neg (by norm_num)]
  rw [centroidInnerGo_succ, if_neg (by norm_num)]
  rw [centroidInnerGo_succ, if_neg (by norm_num)]
  rw [centroidInnerGo_succ, if_neg (by norm_num)]
  rw [centroidInnerGo_succ, if_neg (by norm_num)]
  rw [centroidInnerGo_succ, if_neg (by norm_num)]
  rw [centroidInnerGo_succ, if_neg (by norm_num)]
  rw [centroidInnerGo_succ, if_neg (by norm_num)]
  rw [centroidInnerGo_succ, if_neg (by norm_num)]
  rw [centroidInnerGo_succ, if_neg (by norm_num)]
  rw [centroidInnerGo_succ, if_neg (by norm_num)]
  rw [centroidInnerGo_succ, if_neg (by norm_num)]
  rw [centroidInnerGo_succ, if_neg (by norm_num)]
  rw [centroidInnerGo_succ, if_neg (by norm_num)]
  rw [centroidInnerGo_zero]
  rw [Prod.mk.injEq]
  refine ⟨by norm_num, by norm_num⟩

theorem centroidOuterGo_succ (sig : List ℚ) (thr : ℚ) (pos m : ℕ)
    (x : ℤ) (top bot : ℚ) :
    centroidOuterGo sig thr pos (m + 1) x top bot =
      centroidOuterGo sig thr pos m (x + 1)
        (centroidInnerGo (sigAt sig ((pos : ℤ) + x))
          (sigAt sig ((pos : ℤ) + x + 1)) thr x 101 0 top bot).1
        (centroidInnerGo (sigAt sig ((pos : ℤ) + x))
          (sigAt sig ((pos : ℤ) + x + 1)) thr x 101 0 top bot).2 := rfl

theorem centroidSums_code_eval :
    centroidSums [2, 10, 5] (94 / 100) 1 1 1 = (20301 / 200, 2727 / 2) := by
  have e1 : sigAt [2, 10, 5] (((1 : ℕ) : ℤ) + -1) = 2 := by
    with_unfolding_all decide
  have e2 : sigAt [2, 10, 5] (((1 : ℕ) : ℤ) + -1 + 1) = 10 := by
    with_unfolding_all decide
  have e3 : sigAt [2, 10, 5] (((1 : ℕ) : ℤ) + 0) = 10 := by
    with_unfolding_all decide
  have e4 : sigAt [2, 10, 5] (((1 : ℕ) : ℤ) + 0 + 1) = 5 := by
    with_unfolding_all decide
  show centroidOuterGo [2, 10, 5] (94 / 100) 1 2 (-1) 0 0 = _
  rw [centroidOuterGo_succ, e1, e2, centroidWin_code_1]
  show centroidOuterGo [2, 10, 5] (94 / 100) 1 1 0 (-5858 / 25) 606 = _
  rw [centroidOuterGo_succ, e3, e4, centroidWin_code_2]
  with_unfolding_all rfl

theorem centroidSums_claim_eval :
    centroidSums [2, 10, 5] (47 / 5) 1 1 1 = (3659 / 1000, 9723 / 50) := by
  have e1 : sigAt [2, 10, 5] (((1 : ℕ) : ℤ) + -1) = 2 := by
    with_unfolding_all decide
  have e2 : sigAt [2, 10, 5] (((1 : ℕ) : ℤ) + -1 + 1) = 10 := by
    with_unfolding_all decide
  have e3 : sigAt [2, 10, 5] (((1 : ℕ) : ℤ) + 0) = 10 := by
    with_unfolding_all decide
  have e4 : sigAt [2, 10, 5] (((1 : ℕ) : ℤ) + 0 + 1) = 5 := by
    with_unfolding_all decide
  show centroidOuterGo [2, 10, 5] (47 / 5) 1 2 (-1) 0 0 = _
  rw [centroidOuterGo_succ, e1, e2, centroidWin_claim_1]
  show centroidOuterGo [2, 10, 5] (47 / 5) 1 1 0 (-336 / 125) (1944 / 25) = _
  rw [centroidOuterGo_succ, e3, e4, centroidWin_claim_2]
  with_unfolding_all rfl

/-- C6 (counterexample): signal `[2, 10, 5]`, peak at index 1 (peak value
10), base bounds 1 on both sides.  The claim's threshold is
`0.94 · 10 = 9.4`, keeping only interpolated samples near the peak top
and giving centroid `3659/194460 ≈ 0.0188`; the code thresholds against
`sub_peaks[pos] · 0.94 = 0.94` (the mask value), keeps almost every
sample, and gives `67/900 ≈ 0.0744`. -/
theorem centroid_threshold_counterexample :
    centroidAt [2, 10, 5] [0, 1, 0] [0, 1, 0] [0, 1, 0] 1 = 67 / 900 ∧
    centroidClaimAt [2, 10, 5] [0, 1, 0] [0, 1, 0] [0, 1, 0] 1 =
      3659 / 194460 ∧
    (67 / 900 : ℚ) ≠ 3659 / 194460 := by
  refine ⟨?_, ?_, by norm_num⟩
  · unfold centroidAt
    rw [if_pos (by decide : ([0, 1, 0] : List ℤ).getD 1 0 = 1)]
    rw [(by decide : ([0, 1, 0] : List ℤ).getD 1 0 = (1 : ℤ))]
    rw [(by norm_num : (((1 : ℤ) : ℚ)) * (94 / 100) = 94 / 100)]
    rw [centroidSums_code_eval]
    norm_num [clampUnit]
  · unfold centroidClaimAt
    rw [if_pos (by decide : ([0, 1, 0] : List ℤ).getD 1 0 = 1)]
    rw [(by with_unfolding_all decide :
      (94 / 100 : ℚ) * sigAt [2, 10, 5] ((1 : ℕ) : ℤ) = 47 / 5)]
    rw [(by decide : ([0, 1, 0] : List ℤ).getD 1 0 = (1 : ℤ))]
    rw [centroidSums_claim_eval]
    norm_num [clampUnit]

/-- C6 (amended): for a marked peak the corrector accumulates the
interpolated samples exceeding `0.94` times the PEAK-MASK value — i.e.
the constant threshold `0.94`, not `0.94` times the peak's signal value —
and, whenever at least one sample qualifies (nonzero denominator; in the
source's float arithmetic a zero denominator yields NaN instead), the
centroid offset is the clamped quotient, always within `[-1, 1]`;
non-peak positions get 0. -/
theorem centroid_const_threshold_bounded (sig : List ℚ)
    (mask lb rb : List ℤ) (pos : ℕ) (hpk : mask.getD pos 0 = 1)
    (hden : (centroidSums sig (94 / 100) pos (lb.getD pos 0)
      (rb.getD pos 0)).2 ≠ 0) :
    centroidAt sig mask lb rb pos = centroidConstAt sig lb rb pos ∧
    -1 ≤ centroidAt sig mask lb rb pos ∧
    centroidAt sig mask lb rb pos ≤ 1 ∧
    ∀ q, mask.getD q 0 ≠ 1 → centroidAt sig mask lb rb q = 0 := by
  have heq : centroidAt sig mask lb rb pos =
      centroidConstAt sig lb rb pos := by
    unfold centroidAt centroidConstAt
    rw [if_pos hpk, hpk]
    norm_num
  refine ⟨heq, ?_, ?_, ?_⟩
  · rw [heq]
    exact (clampUnit_bounds _).1
  · rw [heq]
    exact (clampUnit_bounds _).2
  · intro q hq
    unfold centroidAt
    rw [if_neg hq]

/-- Witness for `centroid_const_threshold_bounded` on the same 3-sample
pixel. -/
theorem centroid_const_threshold_bounded_witness :
    (([0, 1, 0] : List ℤ).getD 1 0 = 1) ∧
    (centroidSums [2, 10, 5] (94 / 100) 1
      (([0, 1, 0] : List ℤ).getD 1 0) (([0, 1, 0] : List ℤ).getD 1 0)).2 ≠ 0 ∧
    centroidAt [2, 10, 5] [0, 1, 0] [0, 1, 0] [0, 1, 0] 1 =
      centroidConstAt [2, 10, 5] [0, 1, 0] [0, 1, 0] 1 := by
  have hden : (centroidSums [2, 10, 5] (94 / 100) 1
      (([0, 1, 0] : List ℤ).getD 1 0) (([0, 1, 0] : List ℤ).getD 1 0)).2 ≠ 0 := by
    rw [(by decide : ([0, 1, 0] : List ℤ).getD 1 0 = (1 : ℤ)),
      centroidSums_code_eval]
    norm_num
  exact ⟨by decide, hden,
    (centroid_const_threshold_bounded [2, 10, 5] [0, 1, 0] [0, 1, 0]
      [0, 1, 0] 1 (by decide) hden).1⟩

/-- Read of a list after `List.set`, with the out-of-range no-write
behaviour explicit. -/
theorem getD_set_int (l : List ℤ) (j i : ℕ) (v : ℤ) :
    (l.set j v).getD i 0 = if j = i ∧ j < l.length then v else l.getD i 0 := by
  simp only [List.getD_eq_getElem?_getD, List.getElem?_set]
  by_cases h : j = i
  · subst h
    by_cases hl : j < l.length
    · simp [hl]
    · simp [hl, List.getElem?_eq_none (le_of_not_lt hl)]
  · simp [h]

/-- Embedding of the inner plateau loop of the GPU `_peak_cleanup` kernel
(`_toolbox.py` lines 21-25): `while peaks[(pos+offset) % len] == 1`, the
loop zeroes the entry in BOTH the input `peaks` array and the
`resulting_peaks` array and advances `offset`.  Each iteration zeroes the
entry it has just tested, and entry `pos` was zeroed before the loop
started, so the loop always exits within `len` iterations; the wrapper
passes fuel `len + 1`. -/
def cleanupInner (n pos : ℕ) : ℕ → ℕ → List ℤ → List ℤ →
    List ℤ × List ℤ × ℕ
  | 0, offset, p, res => (p, res, offset)
  | fuel + 1, offset, p, res =>
    if p.getD ((pos + offset) % n) 0 = 1 then
      cleanupInner n pos fuel (offset + 1)
        (p.set ((pos + offset) % n) 0) (res.set ((pos + offset) % n) 0)
    else (p, res, offset)

/-- Embedding of the outer loop of `_peak_cleanup` (lines 17-30): at a
marked position, `peaks[pos]` is zeroed IN PLACE, the plateau is
collapsed, the plateau midpoint `(pos + (offset-1)//2) % len` is marked in
`resulting_peaks`, and the loop jumps by `offset`; at an unmarked position
`resulting_peaks[pos]` is zeroed.  `pos` increases by at least 1 per
iteration, so fuel `len` suffices. -/
def cleanupOuter (n : ℕ) : ℕ → ℕ → List ℤ → List ℤ → List ℤ × List ℤ
  | 0, _, p, res => (p, res)
  | fuel + 1, pos, p, res =>
    if pos < n then
      if p.getD pos 0 = 1 then
        let st := cleanupInner n pos (n + 1) 1 (p.set pos 0) res
        cleanupOuter n fuel (pos + st.2.2) st.1
          (st.2.1.set ((pos + (st.2.2 - 1) / 2) % n) 1)
      else cleanupOuter n fuel (pos + 1) p (res.set pos 0)
    else (p, res)

/-- Embedding of the GPU `_peak_cleanup` kernel for one pixel.  The first
component of the result is the final state of the INPUT `peaks` array
(which the kernel mutates in place), the second the `resulting_peaks`
output array. -/
def peak_cleanup (p res : List ℤ) : List ℤ × List ℤ :=
  cleanupOuter p.length p.length 0 p res

theorem cleanupInner_facts (n pos : ℕ) :
    ∀ fuel offset p res, (∀ x ∈ p, x = 0 ∨ x = 1) →
      (∀ x ∈ (cleanupInner n pos fuel offset p res).1, x = 0 ∨ x = 1) ∧
      (cleanupInner n pos fuel offset p res).1.length = p.length ∧
      (∀ j, p.getD j 0 ≠ 1 →
        (cleanupInner n pos fuel offset p res).1.getD j 0 ≠ 1) ∧
      (∀ k, offset ≤ k → k < (cleanupInner n pos fuel offset p res).2.2 →
        (cleanupInner n pos fuel offset p res).1.getD ((pos + k) % n) 0 ≠ 1) ∧
      offset ≤ (cleanupInner n pos fuel offset p res).2.2 := by
  intro fuel
  induction fuel with
  | zero =>
    intro offset p res h01
    exact ⟨h01, rfl, fun j h => h, fun k hk hk2 => absurd (lt_of_le_of_lt hk hk2)
      (lt_irrefl offset), le_refl offset⟩
  | succ fuel ih =>
    intro offset p res h01
    by_cases hj : p.getD ((pos + offset) % n) 0 = 1
    · have hstep : cleanupInner n pos (fuel + 1) offset p res =
        cleanupInner n pos fuel (offset + 1)
          (p.set ((pos + offset) % n) 0)
          (res.set ((pos + offset) % n) 0) := by
        show (if p.getD ((pos + offset) % n) 0 = 1 then _ else _) = _
        rw [if_pos hj]
      have h01s : ∀ x ∈ p.set ((pos + offset) % n) 0, x = 0 ∨ x = 1 := by
        intro x hx
        rcases List.mem_or_eq_of_mem_set hx with h | h
        · exact h01 x h
        · exact Or.inl h
      obtain ⟨i1, i2, i3, i4, i5⟩ := ih (offset + 1)
        (p.set ((pos + offset) % n) 0) (res.set ((pos + offset) % n) 0) h01s
      rw [hstep]
      have hjlen : (pos + offset) % n < p.length := by
        by_contra hc
        rw [List.getD_eq_getElem?_getD,
          List.getElem?_eq_none (le_of_not_lt hc)] at hj
        exact absurd hj (by decide)
      refine ⟨i1, by rw [i2, List.length_set], ?_, ?_, le_trans (by omega) i5⟩
      · intro j hjne
        apply i3
        rw [getD_set_int]
        split
        · decide
        · exact hjne
      · intro k hk hk2
        rcases lt_or_eq_of_le hk with hlt | heq
        · exact i4 k (by omega) hk2
        · rw [← heq]
          apply i3
          rw [getD_set_int, if_pos ⟨rfl, hjlen⟩]
          decide
    · have hstep : cleanupInner n pos (fuel + 1) offset p res = (p, res, offset) := by
        show (if p.getD ((pos + offset) % n) 0 = 1 then _ else _) = _
        rw [if_neg hj]
      rw [hstep]
      exact ⟨h01, rfl, fun j h => h, fun k hk hk2 => absurd (lt_of_le_of_lt hk hk2)
        (lt_irrefl offset), le_refl offset⟩

theorem getD_eq_zero_of_le (l : List ℤ) (j : ℕ) (h : l.length ≤ j) :
    l.getD j 0 = 0 := by
  rw [List.getD_eq_getElem?_getD, List.getElem?_eq_none h]
  rfl

theorem getD_replicate_zero (n j : ℕ) :
    (List.replicate n (0 : ℤ)).getD j 0 = 0 := by
  rw [List.getD_eq_getElem?_getD, List.getElem?_replicate]
  split <;> rfl

/-- After the outer cleanup loop finishes, no entry of the (mutated)
input `peaks` buffer equals 1: marked positions were zeroed by the loop
itself, and the plateau walk zeroed everything it visited. -/
theorem cleanupOuter_zeroes (n : ℕ) :
    ∀ fuel pos p res, (∀ x ∈ p, x = 0 ∨ x = 1) → p.length = n →
      (∀ j, j < pos → p.getD j 0 ≠ 1) → n - pos ≤ fuel →
      (∀ j, (cleanupOuter n fuel pos p res).1.getD j 0 ≠ 1) ∧
      (cleanupOuter n fuel pos p res).1.length = n ∧
      (∀ x ∈ (cleanupOuter n fuel pos p res).1, x = 0 ∨ x = 1) := by
  intro fuel
  induction fuel with
  | zero =>
    intro pos p res h01 hlen hlow hfuel
    have hred : cleanupOuter n 0 pos p res = (p, res) := rfl
    rw [hred]
    refine ⟨?_, hlen, h01⟩
    intro j
    by_cases hj : j < p.length
    · exact hlow j (by omega)
    · rw [getD_eq_zero_of_le p j (le_of_not_lt hj)]
      decide
  | succ fuel ih =>
    intro pos p res h01 hlen hlow hfuel
    by_cases hpos : pos < n
    · by_cases hmark : p.getD pos 0 = 1
      · have hstep : cleanupOuter n (fuel + 1) pos p res =
            cleanupOuter n fuel
              (pos + (cleanupInner n pos (n + 1) 1 (p.set pos 0) res).2.2)
              (cleanupInner n pos (n + 1) 1 (p.set pos 0) res).1
              ((cleanupInner n pos (n + 1) 1 (p.set pos 0) res).2.1.set
                ((pos + ((cleanupInner n pos (n + 1) 1
                  (p.set pos 0) res).2.2 - 1) / 2) % n) 1) := by
          show (if pos < n then
            if p.getD pos 0 = 1 then _ else _ else _) = _
          rw [if_pos hpos, if_pos hmark]
        have h01s : ∀ x ∈ p.set pos 0, x = 0 ∨ x = 1 := by
          intro x hx
          rcases List.mem_or_eq_of_mem_set hx with h | h
          · exact h01 x h
          · exact Or.inl h
        obtain ⟨f1, f2, f3, f4, f5⟩ :=
          cleanupInner_facts n pos (n + 1) 1 (p.set pos 0) res h01s
        have hplen : pos < p.length := by omega
        have flen : (cleanupInner n pos (n + 1) 1 (p.set pos 0) res).1.length
            = n := by rw [f2, List.length_set, hlen]
        have hlow' : ∀ j,
            j < pos + (cleanupInner n pos (n + 1) 1 (p.set pos 0) res).2.2 →
            (cleanupInner n pos (n + 1) 1 (p.set pos 0) res).1.getD j 0 ≠ 1 := by
          intro j hjlt
          by_cases hjn : j < n
          · by_cases hjp : j < pos
            · apply f3
              rw [getD_set_int, if_neg (by omega)]
              exact hlow j hjp
            · by_cases hje : j = pos
              · apply f3
                rw [hje, getD_set_int, if_pos ⟨rfl, hplen⟩]
                decide
              · have hf := f4 (j - pos) (by omega) (by omega)
                have he : pos + (j - pos) = j := by omega
                rw [he, Nat.mod_eq_of_lt hjn] at hf
                exact hf
          · rw [getD_eq_zero_of_le _ j (by omega)]
            decide
        rw [hstep]
        exact ih (pos + (cleanupInner n pos (n + 1) 1 (p.set pos 0) res).2.2)
          (cleanupInner n pos (n + 1) 1 (p.set pos 0) res).1 _
          f1 flen hlow' (by omega)
      · have hstep : cleanupOuter n (fuel + 1) pos p res =
            cleanupOuter n fuel (pos + 1) p (res.set pos 0) := by
          show (if pos < n then
            if p.getD pos 0 = 1 then _ else _ else _) = _
          rw [if_pos hpos, if_neg hmark]
        have hlow' : ∀ j, j < pos + 1 → p.getD j 0 ≠ 1 := by
          intro j hjlt
          by_cases hje : j = pos
          · rw [hje]; exact hmark
          · exact hlow j (by omega)
        rw [hstep]
        exact ih (pos + 1) p (res.set pos 0) h01 hlen hlow' (by omega)
    · have hstep : cleanupOuter n (fuel + 1) pos p res = (p, res) := by
        show (if pos < n then _ else _) = _
        rw [if_neg hpos]
      rw [hstep]
      refine ⟨?_, hlen, h01⟩
      intro j
      by_cases hj : j < p.length
      · exact hlow j (by omega)
      · rw [getD_eq_zero_of_le p j (le_of_not_lt hj)]
        decide

/-- Running the outer cleanup loop on a peaks buffer with NO entry equal
to 1 takes the unmarked branch at every position: the mutated peaks
buffer is returned unchanged and every scanned entry of the result
buffer is zeroed. -/
theorem cleanupOuter_nopeaks (n : ℕ) :
    ∀ fuel pos p res, (∀ j, p.getD j 0 ≠ 1) → res.length = n →
      n - pos ≤ fuel →
      (cleanupOuter n fuel pos p res).2.length = n ∧
      (∀ j, (cleanupOuter n fuel pos p res).2.getD j 0 =
        if pos ≤ j ∧ j < n then 0 else res.getD j 0) := by
  intro fuel
  induction fuel with
  | zero =>
    intro pos p res hp hres hfuel
    refine ⟨hres, ?_⟩
    intro j
    rw [if_neg (by omega)]
    rfl
  | succ fuel ih =>
    intro pos p res hp hres hfuel
    by_cases hpos : pos < n
    · have hstep : cleanupOuter n (fuel + 1) pos p res =
          cleanupOuter n fuel (pos + 1) p (res.set pos 0) := by
        show (if pos < n then
          if p.getD pos 0 = 1 then _ else _ else _) = _
        rw [if_pos hpos, if_neg (hp pos)]
      rw [hstep]
      obtain ⟨l1, l2⟩ := ih (pos + 1) p (res.set pos 0) hp
        (by rw [List.length_set, hres]) (by omega)
      refine ⟨l1, ?_⟩
      intro j
      rw [l2 j]
      by_cases h1 : pos + 1 ≤ j ∧ j < n
      · rw [if_pos h1, if_pos ⟨by omega, h1.2⟩]
      · rw [if_neg h1, getD_set_int]
        by_cases h2 : j = pos
        · rw [if_pos ⟨h2.symm, by omega⟩, if_pos (by omega)]
        · rw [if_neg (by omega), if_neg (by omega)]
    · have hstep : cleanupOuter n (fuel + 1) pos p res = (p, res) := by
        show (if pos < n then _ else _) = _
        rw [if_neg hpos]
      rw [hstep]
      refine ⟨hres, ?_⟩
      intro j
      rw [if_neg (by omega)]

/-- C10 (counterexample): `_peak_cleanup` mutates its input.  On the
peaks buffer `[0, 1, 1, 0]` the kernel produces the cleaned result
`[0, 1, 0, 0]` but leaves the input buffer zeroed to `[0, 0, 0, 0]`;
running the stage again on that mutated buffer produces `[0, 0, 0, 0]`,
not a bit-identical rerun as the claim requires. -/
theorem peak_cleanup_mutation_counterexample :
    (peak_cleanup [0, 1, 1, 0] [0, 0, 0, 0]).2 = [0, 1, 0, 0] ∧
    (peak_cleanup [0, 1, 1, 0] [0, 0, 0, 0]).1 = [0, 0, 0, 0] ∧
    (peak_cleanup [0, 0, 0, 0] [0, 0, 0, 0]).2 = [0, 0, 0, 0] ∧
    ([0, 1, 0, 0] : List ℤ) ≠ [0, 0, 0, 0] := by decide

/-- C10 (amended): for EVERY 0/1 peaks buffer, `_peak_cleanup` zeroes
its input buffer completely (first conjunct: the mutated `peaks` array
comes back as all zeros), and a rerun of the stage on the mutated buffer
marks no peak at all (second conjunct): the stage consumes its input and
is not idempotent on its physical arguments. -/
theorem peak_cleanup_consumes_input (p res : List ℤ)
    (h01 : ∀ x ∈ p, x = 0 ∨ x = 1) (hres : res.length = p.length) :
    (peak_cleanup p res).1 = List.replicate p.length 0 ∧
    (peak_cleanup (List.replicate p.length 0) res).2 =
      List.replicate p.length 0 := by
  constructor
  · show (cleanupOuter p.length p.length 0 p res).1 =
      List.replicate p.length 0
    obtain ⟨z1, z2, z3⟩ := cleanupOuter_zeroes p.length p.length 0 p res
      h01 rfl (fun j hj => absurd hj (Nat.not_lt_zero j)) (by omega)
    refine List.eq_replicate_iff.mpr ⟨z2, ?_⟩
    intro b hb
    rcases z3 b hb with h0 | h1
    · exact h0
    · exfalso
      obtain ⟨i, hi, hval⟩ := List.mem_iff_getElem.mp hb
      apply z1 i
      rw [List.getD_eq_getElem?_getD, List.getElem?_eq_getElem hi, hval, h1]
      rfl
  · show (cleanupOuter (List.replicate p.length 0).length
        (List.replicate p.length 0).length 0
        (List.replicate p.length 0) res).2 = List.replicate p.length 0
    rw [List.length_replicate]
    obtain ⟨l1, l2⟩ := cleanupOuter_nopeaks p.length p.length 0
      (List.replicate p.length 0) res
      (fun j => by rw [getD_replicate_zero]; decide) hres (by omega)
    refine List.eq_replicate_iff.mpr ⟨l1, ?_⟩
    intro b hb
    obtain ⟨i, hi, hval⟩ := List.mem_iff_getElem.mp hb
    have hi' := hi
    rw [l1] at hi'
    have hgd := l2 i
    rw [if_pos ⟨Nat.zero_le i, hi'⟩] at hgd
    rw [List.getD_eq_getElem?_getD, List.getElem?_eq_getElem hi, hval,
      Option.getD_some] at hgd
    exact hgd

theorem peak_cleanup_consumes_input_witness :
    (∀ x ∈ ([0, 1, 1, 0] : List ℤ), x = 0 ∨ x = 1) ∧
    ([0, 0, 0, 0] : List ℤ).length = ([0, 1, 1, 0] : List ℤ).length ∧
    ((peak_cleanup [0, 1, 1, 0] [0, 0, 0, 0]).1 =
        List.replicate ([0, 1, 1, 0] : List ℤ).length 0 ∧
      (peak_cleanup (List.replicate ([0, 1, 1, 0] : List ℤ).length 0)
          [0, 0, 0, 0]).2 =
        List.replicate ([0, 1, 1, 0] : List ℤ).length 0) :=
  ⟨by decide, by decide,
    peak_cleanup_consumes_input [0, 1, 1, 0] [0, 0, 0, 0]
      (by decide) (by decide)⟩
